import Mathlib

/-!
Shallow embedding of the graph-relationship aggregation service
(`dash_clio_dashboard/services/network_intelligence.py`) and of the
fallback-to-mock data-access layer
(`dash_clio_dashboard/services/matter_3d_analytics.py`) of the
clio-analytics-dashboard repository, together with proofs of the
specification's testable properties.

The Neo4j / SQLite stores are external collaborators: a graph query is
modelled as the ordered list of result rows it returned, and each SQLite
point-lookup helper (`_get_client_metrics`, `_get_matter_data`,
`_get_vendor_metrics`, `_get_staff_metrics`) as a function from an id to
the optional row the query returned (`none` models an empty data frame,
whose dict conversion is `{}` in the source).
-/

namespace ClioDash

/-- An attribute value stored in a node's or edge's `data` dict:
a string, an integer, or a rational (Python float / SQL numeric). -/
inductive Value where
  | S : String → Value
  | I : Int → Value
  | Q : Rat → Value
deriving DecidableEq, Repr

/-- A Cytoscape node record: the `data` dict of a node element.
Every node dict built by the service has `id`, `name` and `type` keys;
the remaining, query-specific keys are kept as an ordered key/value list. -/
structure Node where
  id : String
  name : String
  type : String
  attrs : List (String × Value)
deriving DecidableEq, Repr

/-- A Cytoscape edge record: the `data` dict of an edge element.
Every edge dict built by the service has `source`, `target`,
`relationship` and `label` keys; the extra keys of `used_in` edges
(`cost`, `service_type`) are kept as an ordered key/value list. -/
structure Edge where
  source : String
  target : String
  relationship : String
  label : String
  attrs : List (String × Value)
deriving DecidableEq, Repr

/-- An element of the combined `elements` payload list. -/
inductive Element where
  | node : Node → Element
  | edge : Edge → Element
deriving DecidableEq, Repr

/-- Project the node records, in order, out of an element list. -/
def nodesOf (t : List Element) : List Node :=
  t.filterMap fun e => match e with
    | .node n => some n
    | .edge _ => none

/-- Project the edge records, in order, out of an element list. -/
def edgesOf (t : List Element) : List Edge :=
  t.filterMap fun e => match e with
    | .node _ => none
    | .edge e => some e

/-- The ids of the node records of an element list, in order. -/
def nodeIdsOf (t : List Element) : List String :=
  (nodesOf t).map Node.id

/-- A trace of emissions is grounded when every edge appended to it
references, through its source id and its target id, node records that
were emitted strictly before the edge. -/
def EdgesGrounded (t : List Element) : Prop :=
  ∀ pre e post, t = pre ++ Element.edge e :: post →
    e.source ∈ nodeIdsOf pre ∧ e.target ∈ nodeIdsOf pre

/-! ### Family network (`get_client_family_network`) -/

/-- One result row of the family-relationship Cypher query: two related
clients with their matter-id lists (the query's `LIMIT $limit` and
`ORDER BY` only shape which rows come back, which is the input here). -/
structure FamilyRow where
  client1_id : String
  client1_name : String
  client2_id : String
  client2_name : String
  client1_matters : List String
  client2_matters : List String
  total_matters : Int
deriving DecidableEq, Repr

/-- The row of the `_get_client_metrics` SQLite aggregate query; the
lookup itself is modelled as `String → Option ClientMetrics`, `none`
standing for an empty data frame (a `{}` dict in the source). -/
structure ClientMetrics where
  matter_count : Int
  total_matter_value : Int
  avg_matter_value : Rat
deriving DecidableEq, Repr

/-- The row of the `_get_matter_data` SQLite query. -/
structure MatterData where
  description : String
  value : Int
  status : String
  practice_area : String
  created_date : String
deriving DecidableEq, Repr

/-- The local collections built inside `get_client_family_network`.
`trace` records the node and edge dicts in the order the source appends
them to its `nodes` / `edges` lists (the two lists are recovered from it
by projection, so append order across both lists is kept);
`client_calls` / `matter_calls` log each `_get_client_metrics` /
`_get_matter_data` invocation, in order. -/
structure FamState where
  trace : List Element
  seen_clients : List String
  seen_matters : List String
  client_calls : List String
  matter_calls : List String
deriving DecidableEq, Repr

/-- The empty collections at the top of the result loop. -/
def famInit : FamState := ⟨[], [], [], [], []⟩

/-- The client node dict: `value` and `matter_count` come from the
`_get_client_metrics` lookup via `.get(key, 0)`. -/
def clientNode (cm : String → Option ClientMetrics) (cid nm : String) : Node :=
  { id := "client_" ++ cid, name := nm, type := "client",
    attrs := [("value", .I (((cm cid).map ClientMetrics.total_matter_value).getD 0)),
              ("matter_count", .I (((cm cid).map ClientMetrics.matter_count).getD 0))] }

/-- The `if client_id not in seen_clients` block of the client loop:
mark seen, run the metrics lookup, append the client node. -/
def famAddClient (cm : String → Option ClientMetrics) (cid nm : String)
    (st : FamState) : FamState :=
  if cid ∈ st.seen_clients then st
  else { st with
    seen_clients := st.seen_clients ++ [cid],
    client_calls := st.client_calls ++ [cid],
    trace := st.trace ++ [.node (clientNode cm cid nm)] }

/-- The family edge appended once per row, between the row's clients. -/
def familyEdge (r : FamilyRow) : Edge :=
  { source := "client_" ++ r.client1_id, target := "client_" ++ r.client2_id,
    relationship := "family", label := "Family", attrs := [] }

/-- The matter node dict: name/value/status come from `_get_matter_data`
via `.get` with the source's defaults. -/
def famMatterNode (md : String → Option MatterData) (mid : String) : Node :=
  { id := "matter_" ++ mid,
    name := ((md mid).map MatterData.description).getD ("Matter " ++ mid),
    type := "matter",
    attrs := [("value", .I (((md mid).map MatterData.value).getD 0)),
              ("status", .S (((md mid).map MatterData.status).getD "Active"))] }

/-- The client-owns-matter edge. -/
def ownsEdge (cid mid : String) : Edge :=
  { source := "client_" ++ cid, target := "matter_" ++ mid,
    relationship := "owns", label := "Owns", attrs := [] }

/-- The `if matter_id not in seen_matters` body of the matter loop:
mark seen, run the matter lookup, append the matter node and then the
owns edge from the current client. -/
def famAddMatter (md : String → Option MatterData) (cid : String)
    (st : FamState) (mid : String) : FamState :=
  if mid ∈ st.seen_matters then st
  else { st with
    seen_matters := st.seen_matters ++ [mid],
    matter_calls := st.matter_calls ++ [mid],
    trace := st.trace ++ [.node (famMatterNode md mid), .edge (ownsEdge cid mid)] }

/-- The body of `for record in neo4j_result`: the client loop (client1
then client2), the family edge, then the two matter loops. -/
def famStep (cm : String → Option ClientMetrics) (md : String → Option MatterData)
    (st : FamState) (r : FamilyRow) : FamState :=
  let st1 := famAddClient cm r.client1_id r.client1_name st
  let st2 := famAddClient cm r.client2_id r.client2_name st1
  let st3 := { st2 with trace := st2.trace ++ [.edge (familyEdge r)] }
  let st4 := r.client1_matters.foldl (famAddMatter md r.client1_id) st3
  r.client2_matters.foldl (famAddMatter md r.client2_id) st4

/-- The whole result loop of `get_client_family_network`. -/
def famFold (cm : String → Option ClientMetrics) (md : String → Option MatterData)
    (rows : List FamilyRow) : FamState :=
  rows.foldl (famStep cm md) famInit

/-- The `stats` dict of the family payload. -/
structure FamilyStats where
  nodeCount : Nat
  edgeCount : Nat
  clusterCount : Nat
deriving DecidableEq, Repr

/-- The return value of `get_client_family_network`: `elements` is
`nodes + edges`, i.e. all node dicts (in emission order) followed by all
edge dicts (in emission order). -/
structure FamilyPayload where
  elements : List Element
  stats : FamilyStats
  layout : String
  title : String
deriving DecidableEq, Repr

/-- `get_client_family_network`, as a function of the metrics lookups
and of the ordered rows the Cypher query returned. -/
def get_client_family_network (cm : String → Option ClientMetrics)
    (md : String → Option MatterData) (rows : List FamilyRow) : FamilyPayload :=
  let st := famFold cm md rows
  let nodes := nodesOf st.trace
  let edges := edgesOf st.trace
  { elements := nodes.map .node ++ edges.map .edge,
    stats := { nodeCount := nodes.length, edgeCount := edges.length,
               clusterCount := st.seen_clients.length / 2 },
    layout := "cose",
    title := "Client Family Networks" }

/-- `get_client_family_network` seen from its caller when the graph
query itself may fail: the function body contains no `try`/`except`, so
a raising `session.run` propagates the exception to the caller. -/
def get_client_family_network_run (cm : String → Option ClientMetrics)
    (md : String → Option MatterData)
    (queryResult : Except String (List FamilyRow)) : Except String FamilyPayload :=
  queryResult.map (get_client_family_network cm md)

/-! ### Vendor network (`get_vendor_matter_network`) -/

/-- One result row of the vendor-usage Cypher query (`min_value` /
`practice_area` filtering happens inside the query). -/
structure VendorRow where
  vendor_id : String
  vendor_name : String
  vendor_specialty : String
  matter_id : String
  matter_desc : String
  matter_value : Int
  client_id : String
  client_name : String
  vendor_cost : Int
  service_type : String
deriving DecidableEq, Repr

/-- The row of the `_get_vendor_metrics` SQLite aggregate query. -/
structure VendorMetrics where
  matter_count : Int
  total_revenue : Int
  avg_cost_per_matter : Rat
deriving DecidableEq, Repr

/-- Insert a thousands separator after every third character of a
reversed (least-significant-first) digit list. -/
def chunk3 : List Char → List Char
  | a :: b :: c :: d :: rest => a :: b :: c :: ',' :: chunk3 (d :: rest)
  | l => l

/-- The f-string `f'${cost:,.0f}'` used as the `used_in` edge label:
a dollar sign followed by the comma-grouped value. -/
def formatUSD (n : Int) : String :=
  let ds := Nat.toDigits 10 n.natAbs
  "$" ++ (if n < 0 then "-" else "") ++ String.mk (chunk3 ds.reverse).reverse

/-- The `desc[:k] + '...' if len(desc) > k else desc` truncation used
for matter node names. -/
def truncateDesc (k : Nat) (s : String) : String :=
  if s.length > k then s.take k ++ "..." else s

/-- The local collections built inside `get_vendor_matter_network`. -/
structure VenState where
  trace : List Element
  seen_vendors : List String
  seen_matters : List String
  seen_clients : List String
  vendor_calls : List String
deriving DecidableEq, Repr

/-- The empty collections at the top of the vendor result loop. -/
def venInit : VenState := ⟨[], [], [], [], []⟩

/-- The vendor node dict, enriched by `_get_vendor_metrics`. -/
def vendorNode (vm : String → Option VendorMetrics) (r : VendorRow) : Node :=
  { id := "vendor_" ++ r.vendor_id, name := r.vendor_name, type := "vendor",
    attrs := [("specialty", .S r.vendor_specialty),
              ("total_revenue", .I (((vm r.vendor_id).map VendorMetrics.total_revenue).getD 0)),
              ("matter_count", .I (((vm r.vendor_id).map VendorMetrics.matter_count).getD 0))] }

/-- The matter node dict of the vendor network (name truncated at 30). -/
def venMatterNode (r : VendorRow) : Node :=
  { id := "matter_" ++ r.matter_id, name := truncateDesc 30 r.matter_desc,
    type := "matter", attrs := [("value", .I r.matter_value)] }

/-- The context client node dict of the vendor network (`value: 0`). -/
def venClientNode (r : VendorRow) : Node :=
  { id := "client_" ++ r.client_id, name := r.client_name, type := "client",
    attrs := [("value", .I 0)] }

/-- The vendor-used-in-matter edge appended once per row. -/
def usedInEdge (r : VendorRow) : Edge :=
  { source := "vendor_" ++ r.vendor_id, target := "matter_" ++ r.matter_id,
    relationship := "used_in", label := formatUSD r.vendor_cost,
    attrs := [("cost", .I r.vendor_cost), ("service_type", .S r.service_type)] }

/-- The `if vendor_id not in seen_vendors` block. -/
def venAddVendor (vm : String → Option VendorMetrics) (st : VenState)
    (r : VendorRow) : VenState :=
  if r.vendor_id ∈ st.seen_vendors then st
  else { st with
    seen_vendors := st.seen_vendors ++ [r.vendor_id],
    vendor_calls := st.vendor_calls ++ [r.vendor_id],
    trace := st.trace ++ [.node (vendorNode vm r)] }

/-- The `if matter_id not in seen_matters` block. -/
def venAddMatter (st : VenState) (r : VendorRow) : VenState :=
  if r.matter_id ∈ st.seen_matters then st
  else { st with
    seen_matters := st.seen_matters ++ [r.matter_id],
    trace := st.trace ++ [.node (venMatterNode r)] }

/-- The `if client_id not in seen_clients` block: the client node and
then the owns edge to the row's matter. -/
def venAddClient (st : VenState) (r : VendorRow) : VenState :=
  if r.client_id ∈ st.seen_clients then st
  else { st with
    seen_clients := st.seen_clients ++ [r.client_id],
    trace := st.trace ++ [.node (venClientNode r),
                          .edge (ownsEdge r.client_id r.matter_id)] }

/-- The body of the vendor result loop: vendor, matter, client blocks,
then the unconditional `used_in` edge. -/
def venStep (vm : String → Option VendorMetrics) (st : VenState)
    (r : VendorRow) : VenState :=
  let st1 := venAddVendor vm st r
  let st2 := venAddMatter st1 r
  let st3 := venAddClient st2 r
  { st3 with trace := st3.trace ++ [.edge (usedInEdge r)] }

/-- The whole result loop of `get_vendor_matter_network`. -/
def venFold (vm : String → Option VendorMetrics) (rows : List VendorRow) : VenState :=
  rows.foldl (venStep vm) venInit

/-- The `stats` dict of the vendor payload. -/
structure VendorStats where
  nodeCount : Nat
  edgeCount : Nat
  vendorCount : Nat
deriving DecidableEq, Repr

/-- The return value of `get_vendor_matter_network`. -/
structure VendorPayload where
  elements : List Element
  stats : VendorStats
  layout : String
  title : String
deriving DecidableEq, Repr

/-- `get_vendor_matter_network`; `practice_area` also feeds the title,
`min_value` only shapes the query and hence which rows arrive. -/
def get_vendor_matter_network (vm : String → Option VendorMetrics)
    (practice_area : Option String) (_min_value : Int)
    (rows : List VendorRow) : VendorPayload :=
  let st := venFold vm rows
  let nodes := nodesOf st.trace
  let edges := edgesOf st.trace
  { elements := nodes.map .node ++ edges.map .edge,
    stats := { nodeCount := nodes.length, edgeCount := edges.length,
               vendorCount := st.seen_vendors.length },
    layout := "concentric",
    title := "Vendor Network Analysis" ++
      (match practice_area with | some pa => " - " ++ pa | none => "") }

/-! ### Staff workload network (`get_staff_workload_network`) -/

/-- One result row of the staff-workload Cypher query. -/
structure StaffRow where
  staff_id : String
  staff_name : String
  staff_role : String
  dept_id : String
  dept_name : String
  matter_id : String
  matter_desc : String
  matter_status : String
  client_id : String
  client_name : String
deriving DecidableEq, Repr

/-- The row of the `_get_staff_metrics` SQLite aggregate query
(`active_matters` and `total_matters` are `COUNT` results, hence
naturals). -/
structure StaffAgg where
  active_matters : Nat
  total_matters : Nat
  avg_matter_value : Rat
deriving DecidableEq, Repr

/-- The dict returned by `_get_staff_metrics`: the aggregate row (all
keys absent when the frame is empty, read back through `.get(_, 0)`)
plus the computed `capacity_percentage`
`min(100, (active_matters / 15) * 100)`. -/
structure StaffMetricsResult where
  active_matters : Nat
  total_matters : Nat
  avg_matter_value : Rat
  capacity_percentage : Rat
deriving DecidableEq, Repr

/-- `_get_staff_metrics`, as a function of the aggregate row the SQLite
query returned for this staff id. -/
def get_staff_metrics (aux : Option StaffAgg) : StaffMetricsResult :=
  let active : Nat := (aux.map StaffAgg.active_matters).getD 0
  { active_matters := active,
    total_matters := (aux.map StaffAgg.total_matters).getD 0,
    avg_matter_value := (aux.map StaffAgg.avg_matter_value).getD 0,
    capacity_percentage := min 100 (((active : Rat) / 15) * 100) }

/-- The local collections built inside `get_staff_workload_network`;
`workloads` is the `staff_workloads` dict in insertion order. -/
structure StaffState where
  trace : List Element
  seen_staff : List String
  seen_departments : List String
  seen_matters : List String
  staff_calls : List String
  workloads : List (String × Nat)
deriving DecidableEq, Repr

/-- The empty collections at the top of the staff result loop. -/
def staffInit : StaffState := ⟨[], [], [], [], [], []⟩

/-- `if staff_id not in staff_workloads: staff_workloads[staff_id] = 0`
followed by `staff_workloads[staff_id] += 1`. -/
def bumpWorkload (l : List (String × Nat)) (k : String) : List (String × Nat) :=
  if l.any (fun p => p.1 = k) then
    l.map (fun p => if p.1 = k then (p.1, p.2 + 1) else p)
  else l ++ [(k, 1)]

/-- The staff node dict, enriched by `_get_staff_metrics`. -/
def staffNode (sm : String → Option StaffAgg) (r : StaffRow) : Node :=
  let m := get_staff_metrics (sm r.staff_id)
  { id := "staff_" ++ r.staff_id, name := r.staff_name, type := "staff",
    attrs := [("role", .S r.staff_role),
              ("workload", .I (m.active_matters : Int)),
              ("capacity_pct", .Q m.capacity_percentage)] }

/-- The department node dict (`staff_count: 0` placeholder). -/
def deptNode (r : StaffRow) : Node :=
  { id := "dept_" ++ r.dept_id, name := r.dept_name, type := "department",
    attrs := [("staff_count", .I 0)] }

/-- The matter node dict of the staff network (name truncated at 25). -/
def staffMatterNode (r : StaffRow) : Node :=
  { id := "matter_" ++ r.matter_id, name := truncateDesc 25 r.matter_desc,
    type := "matter", attrs := [("status", .S r.matter_status)] }

/-- The staff-works-in-department edge. -/
def worksInEdge (r : StaffRow) : Edge :=
  { source := "staff_" ++ r.staff_id, target := "dept_" ++ r.dept_id,
    relationship := "works_in", label := "Works in", attrs := [] }

/-- The staff-assigned-to-matter edge. -/
def assignedEdge (r : StaffRow) : Edge :=
  { source := "staff_" ++ r.staff_id, target := "matter_" ++ r.matter_id,
    relationship := "assigned_to", label := "Assigned", attrs := [] }

/-- The `if staff_id not in seen_staff` block. -/
def staffAddStaff (sm : String → Option StaffAgg) (st : StaffState)
    (r : StaffRow) : StaffState :=
  if r.staff_id ∈ st.seen_staff then st
  else { st with
    seen_staff := st.seen_staff ++ [r.staff_id],
    staff_calls := st.staff_calls ++ [r.staff_id],
    trace := st.trace ++ [.node (staffNode sm r)] }

/-- The `if dept_id not in seen_departments` block: the department node
and then the works-in edge from the row's staff member. -/
def staffAddDept (st : StaffState) (r : StaffRow) : StaffState :=
  if r.dept_id ∈ st.seen_departments then st
  else { st with
    seen_departments := st.seen_departments ++ [r.dept_id],
    trace := st.trace ++ [.node (deptNode r), .edge (worksInEdge r)] }

/-- The `if matter_id not in seen_matters` block: the matter node and
then the assigned edge from the row's staff member. -/
def staffAddMatter (st : StaffState) (r : StaffRow) : StaffState :=
  if r.matter_id ∈ st.seen_matters then st
  else { st with
    seen_matters := st.seen_matters ++ [r.matter_id],
    trace := st.trace ++ [.node (staffMatterNode r), .edge (assignedEdge r)] }

/-- The body of the staff result loop: workload tracking, then the
staff, department and matter blocks. -/
def staffStep (sm : String → Option StaffAgg) (st : StaffState)
    (r : StaffRow) : StaffState :=
  let st0 := { st with workloads := bumpWorkload st.workloads r.staff_id }
  let st1 := staffAddStaff sm st0 r
  let st2 := staffAddDept st1 r
  staffAddMatter st2 r

/-- The whole result loop of `get_staff_workload_network`. -/
def staffFold (sm : String → Option StaffAgg) (rows : List StaffRow) : StaffState :=
  rows.foldl (staffStep sm) staffInit

/-- The `stats` dict of the staff payload: `avgWorkload` is
`sum(values)/len(values) if staff_workloads else 0`. -/
structure StaffStats where
  nodeCount : Nat
  edgeCount : Nat
  staffCount : Nat
  avgWorkload : Rat
deriving DecidableEq, Repr

/-- The return value of `get_staff_workload_network`. -/
structure StaffPayload where
  elements : List Element
  stats : StaffStats
  layout : String
  title : String
deriving DecidableEq, Repr

/-- `get_staff_workload_network`; `department` also feeds the title. -/
def get_staff_workload_network (sm : String → Option StaffAgg)
    (department : Option String) (rows : List StaffRow) : StaffPayload :=
  let st := staffFold sm rows
  let nodes := nodesOf st.trace
  let edges := edgesOf st.trace
  { elements := nodes.map .node ++ edges.map .edge,
    stats := { nodeCount := nodes.length, edgeCount := edges.length,
               staffCount := st.seen_staff.length,
               avgWorkload :=
                 if st.workloads = [] then 0
                 else ((st.workloads.map Prod.snd).sum : Rat) / (st.workloads.length : Rat) },
    layout := "breadthfirst",
    title := "Staff Workload Analysis" ++
      (match department with | some d => " - " ++ d | none => "") }

/-! ### 3D matter analytics (`matter_3d_analytics.py`)

The SQLite store is again an external collaborator: each query is
modelled as the `Except`-valued list of rows it produced (`.error` for a
raising `sqlite3`/`pd.read_sql` call).  NumPy's seeded global generator
(`np.random.seed(42)`) is an external pseudo-random source, modelled as
an abstract generator interface threaded through the mock builder in
exactly the order the source consumes draws. -/

/-- The abstract NumPy random interface used by the mock builder. -/
structure RNG (G : Type) where
  randint : Int → Int → G → Int × G
  uniform : Rat → Rat → G → Rat × G
  choiceStr : List String → G → String × G
  choiceWeighted : List String → List Rat → G → String × G

/-- The `MatterPoint` dataclass. -/
structure MatterPoint where
  matter_id : String
  client_name : String
  department : String
  stage_name : String
  days_in_stage : Int
  total_expenses : Rat
  active_tasks : Int
  percent_complete : Rat
  responsible_staff : String
  priority_level : String
  settlement_probability : Rat
deriving DecidableEq, Repr

/-- One row of the `_get_real_matter_data` SQL query. -/
structure MatterDBRow where
  matter_id : String
  client_name : String
  department : String
  stage_name : String
  days_in_stage : Int
  total_expenses : Rat
  active_tasks : Int
  percent_complete : Rat
  responsible_staff : String
  priority_level : String
  settlement_probability : Rat
  created_at : String
deriving DecidableEq, Repr

/-- The dict returned by `get_matter_3d_data` paths: nine parallel
column lists for the 3D visualization. -/
structure Matter3DData where
  departments : List String
  days_in_stage : List Int
  total_expenses : List Rat
  active_tasks : List Int
  percent_complete : List Rat
  hover_text : List String
  matter_ids : List String
  client_names : List String
  responsible_staff : List String
deriving DecidableEq, Repr

/-- Round-half-even, the rounding Python string formatting applies. -/
def roundHalfEven (q : Rat) : Int :=
  let f := ⌊q⌋
  let r := q - (f : Rat)
  if r < 1 / 2 then f
  else if 1 / 2 < r then f + 1
  else if f % 2 = 0 then f else f + 1

/-- The `{p:.0%}` format: value times one hundred, rounded, percent. -/
def percentFmt (p : Rat) : String := toString (roundHalfEven (p * 100)) ++ "%"

/-- The rich hover string built identically for real and mock rows. -/
def hoverText (matter_id client_name responsible_staff stage_name
    priority_level : String) (sp : Rat) : String :=
  "Matter: " ++ matter_id ++ "<br>" ++
  "Client: " ++ client_name ++ "<br>" ++
  "Staff: " ++ responsible_staff ++ "<br>" ++
  "Stage: " ++ stage_name ++ "<br>" ++
  "Priority: " ++ priority_level ++ "<br>" ++
  "Settlement Prob: " ++ percentFmt sp

/-- `_format_dataframe_for_3d`: project the frame's columns to lists. -/
def format_dataframe_for_3d (rows : List MatterDBRow) : Matter3DData :=
  { departments := rows.map MatterDBRow.department,
    days_in_stage := rows.map MatterDBRow.days_in_stage,
    total_expenses := rows.map MatterDBRow.total_expenses,
    active_tasks := rows.map MatterDBRow.active_tasks,
    percent_complete := rows.map MatterDBRow.percent_complete,
    hover_text := rows.map fun r =>
      hoverText r.matter_id r.client_name r.responsible_staff r.stage_name
        r.priority_level r.settlement_probability,
    matter_ids := rows.map MatterDBRow.matter_id,
    client_names := rows.map MatterDBRow.client_name,
    responsible_staff := rows.map MatterDBRow.responsible_staff }

/-- `_get_real_matter_data`: its own `try`/`except` catches any store
failure and returns `None`; an empty frame also yields `None`. -/
def get_real_matter_data (store : Except String (List MatterDBRow)) :
    Option Matter3DData :=
  match store with
  | .error _ => none
  | .ok rows => if rows = [] then none else some (format_dataframe_for_3d rows)

/-- `self.departments` of `Matter3DAnalyticsService`. -/
def departmentsList : List String :=
  ["Prelitigation", "Litigation", "Appeals", "Settlement",
   "Discovery", "Trial Prep", "Post-Settlement", "Compliance"]

/-- `self.stage_names` of `Matter3DAnalyticsService`. -/
def stageNamesList : List String :=
  ["Initial Review", "Investigation", "Filing", "Discovery",
   "Mediation", "Trial Prep", "Trial", "Settlement", "Appeal", "Closed"]

/-- The candidate client names of the mock builder. -/
def mockClientNames : List String :=
  ["Acme Corporation", "Global Industries Inc", "Tech Solutions LLC",
   "Regional Healthcare", "Metro Construction", "Coastal Insurance",
   "Summit Financial", "Valley Manufacturing", "Urban Development",
   "Pacific Logistics", "Eastern Energy", "Central Banking"]

/-- The candidate staff names of the mock builder. -/
def mockStaffNames : List String :=
  ["Sarah Chen", "Michael Rodriguez", "Emily Johnson", "David Kim",
   "Jennifer Lee", "Robert Thompson", "Lisa Martinez", "James Wilson",
   "Maria Garcia", "Thomas Anderson", "Ashley Davis", "Christopher Brown"]

/-- The department-specific `(days, expense, task, completion)` ranges
of the mock builder's if-chain. -/
def mockRanges (department : String) :
    (Int × Int) × (Rat × Rat) × (Int × Int) × (Rat × Rat) :=
  if department ∈ ["Prelitigation", "Initial Review"] then
    ((1, 120), (1000, 50000), (1, 8), (10, 60))
  else if department ∈ ["Discovery", "Investigation"] then
    ((30, 300), (25000, 200000), (5, 15), (40, 80))
  else if department ∈ ["Trial Prep", "Litigation"] then
    ((180, 600), (100000, 500000), (10, 25), (60, 90))
  else if department ∈ ["Settlement", "Mediation"] then
    ((90, 400), (50000, 300000), (3, 12), (70, 95))
  else
    ((60, 800), (20000, 400000), (2, 10), (80, 100))

/-- The base settlement probability chosen from the department. -/
def mockSettlementBase (department : String) : Rat :=
  if department ∈ ["Settlement", "Mediation"] then 0.8
  else if department ∈ ["Trial Prep", "Trial"] then 0.6
  else if department ∈ ["Discovery"] then 0.4
  else 0.3

/-- One iteration of the mock builder's `for i in range(limit)` loop,
consuming random draws in source order. -/
def mkMockMatter {G : Type} (P : RNG G) (departments_to_use : List String)
    (i : Nat) (g : G) : MatterPoint × G :=
  let (department, g) := P.choiceStr departments_to_use g
  let (dayR, expR, taskR, compR) := mockRanges department
  let (days_in_stage, g) := P.randint dayR.1 dayR.2 g
  let (base_expense, g) := P.uniform expR.1 expR.2 g
  let time_factor : Rat := 1 + ((days_in_stage : Rat) / 365) * 0.5
  let total_expenses := base_expense * time_factor
  let (active_tasks, g) := P.randint taskR.1 taskR.2 g
  let (active_tasks, g) :=
    if days_in_stage > 200 then
      let (extra, g) := P.randint 2 8 g
      (min (active_tasks + extra) 30, g)
    else (active_tasks, g)
  let (base_completion, g) := P.uniform compR.1 compR.2 g
  let base_completion :=
    if days_in_stage > 300 then min (base_completion + 15) 95 else base_completion
  let matter_id := "MTR-2024-" ++ toString (i + 1001)
  let (client_name, g) := P.choiceStr mockClientNames g
  let (responsible_staff, g) := P.choiceStr mockStaffNames g
  let (priority, g) :=
    P.choiceWeighted ["High", "Medium", "Low", "Critical"] [0.15, 0.5, 0.3, 0.05] g
  let settlement_prob := mockSettlementBase department
  let (delta, g) := P.uniform (-0.2) 0.2 g
  let settlement_probability := max 0.05 (min 0.95 (settlement_prob + delta))
  let (stage_name, g) := P.choiceStr stageNamesList g
  (⟨matter_id, client_name, department, stage_name, days_in_stage,
    total_expenses, active_tasks, base_completion, responsible_staff,
    priority, settlement_probability⟩, g)

/-- `_generate_sophisticated_mock_data`: build `limit` matters, then
project the parallel column lists. -/
def generate_sophisticated_mock_data {G : Type} (P : RNG G) (g0 : G)
    (limit : Nat) (department_filter : Option String) : Matter3DData :=
  let departments_to_use :=
    match department_filter with
    | some d => [d]
    | none => departmentsList
  let matters :=
    ((List.range limit).foldl
      (fun acc i =>
        let (m, g) := mkMockMatter P departments_to_use i acc.2
        (acc.1 ++ [m], g))
      (([] : List MatterPoint), g0)).1
  { departments := matters.map MatterPoint.department,
    days_in_stage := matters.map MatterPoint.days_in_stage,
    total_expenses := matters.map MatterPoint.total_expenses,
    active_tasks := matters.map MatterPoint.active_tasks,
    percent_complete := matters.map MatterPoint.percent_complete,
    hover_text := matters.map fun m =>
      hoverText m.matter_id m.client_name m.responsible_staff m.stage_name
        m.priority_level m.settlement_probability,
    matter_ids := matters.map MatterPoint.matter_id,
    client_names := matters.map MatterPoint.client_name,
    responsible_staff := matters.map MatterPoint.responsible_staff }

/-- `get_matter_3d_data`: the inner helper already converts any store
failure to `None`, and a falsy (`None`) result selects the mock
fallback, so every path returns a payload.  (The outer `except` branch,
which would call the mock builder with `min(limit, 100)`, is unreachable
here: the only fallible step is the store access, caught inside
`_get_real_matter_data`.) -/
def get_matter_3d_data {G : Type} (P : RNG G) (g0 : G) (limit : Nat)
    (department_filter : Option String)
    (store : Except String (List MatterDBRow)) : Matter3DData :=
  match get_real_matter_data store with
  | some d => d
  | none => generate_sophisticated_mock_data P g0 limit department_filter

/-- One row of the `get_department_summary` SQL query. -/
structure DeptSummaryRow where
  department : String
  matter_count : Int
  avg_days : Rat
  avg_completion : Rat
  total_expenses : Rat
deriving DecidableEq, Repr

/-- The dict returned by `get_department_summary`. -/
structure DeptSummary where
  departments : List String
  matter_counts : List Int
  avg_days : List Rat
  avg_completion : List Rat
  total_expenses : List Rat
deriving DecidableEq, Repr

/-- The hard-coded mock summary substituted on store failure. -/
def mockDeptSummary : DeptSummary :=
  { departments := departmentsList,
    matter_counts := [45, 38, 12, 23, 67, 34, 19, 8],
    avg_days := [85, 156, 298, 189, 123, 267, 78, 445],
    avg_completion := [65, 78, 45, 89, 72, 56, 92, 34],
    total_expenses := [234567, 456789, 123456, 789012, 345678, 567890, 123890, 456123] }

/-- `get_department_summary`: `try` the store, `except` substitutes the
hard-coded mock summary. -/
def get_department_summary (store : Except String (List DeptSummaryRow)) :
    DeptSummary :=
  match store with
  | .ok rows =>
    { departments := rows.map DeptSummaryRow.department,
      matter_counts := rows.map DeptSummaryRow.matter_count,
      avg_days := rows.map DeptSummaryRow.avg_days,
      avg_completion := rows.map DeptSummaryRow.avg_completion,
      total_expenses := rows.map DeptSummaryRow.total_expenses }
  | .error _ => mockDeptSummary

/-- Well-formedness of a 3D payload's shape: the nine parallel column
lists (the dict's keys are fixed by the `Matter3DData` type) all have
the same length. -/
def matter3dShapeOk (d : Matter3DData) : Prop :=
  d.days_in_stage.length = d.departments.length ∧
  d.total_expenses.length = d.departments.length ∧
  d.active_tasks.length = d.departments.length ∧
  d.percent_complete.length = d.departments.length ∧
  d.hover_text.length = d.departments.length ∧
  d.matter_ids.length = d.departments.length ∧
  d.client_names.length = d.departments.length ∧
  d.responsible_staff.length = d.departments.length

/-- Well-formedness of a department summary's shape: the five parallel
column lists all have the same length. -/
def deptSummaryShapeOk (s : DeptSummary) : Prop :=
  s.matter_counts.length = s.departments.length ∧
  s.avg_days.length = s.departments.length ∧
  s.avg_completion.length = s.departments.length ∧
  s.total_expenses.length = s.departments.length

/-! ### Derived observation helpers and loop invariants -/

/-- The client ids referenced by a family row sequence, in processing
order (within a row, client1 before client2). -/
def famClientIds (rows : List FamilyRow) : List String :=
  rows.flatMap fun r => [r.client1_id, r.client2_id]

/-- The matter ids referenced by a family row sequence, in processing
order. -/
def famMatterIds (rows : List FamilyRow) : List String :=
  rows.flatMap fun r => r.client1_matters ++ r.client2_matters

/-- The name paired with a client id at its first occurrence in a
family row sequence, scanning rows in order and client1 before client2
(mirroring the aggregation's processing order). -/
def firstClientName (rows : List FamilyRow) (cid : String) : Option String :=
  match rows with
  | [] => none
  | r :: rs =>
    if r.client1_id = cid then some r.client1_name
    else if r.client2_id = cid then some r.client2_name
    else firstClientName rs cid

/-- The client nodes of a trace carrying a given raw client id. -/
def clientNodesFor (cid : String) (t : List Element) : List Node :=
  (nodesOf t).filter fun n => n.id = "client_" ++ cid

/-- How many rows of a family row sequence reference a client id (as
either of the row's two clients). -/
def famRowsReferencing (rows : List FamilyRow) (cid : String) : Nat :=
  rows.countP fun r => r.client1_id == cid || r.client2_id == cid

/-- The invariant tying `get_client_family_network`'s collections
together: the trace is grounded, node ids are distinct, the seen-sets
characterise exactly which namespaced ids have nodes, and the metrics
lookups executed so far are exactly the first-seen ids. -/
structure FamInv (st : FamState) : Prop where
  ground : EdgesGrounded st.trace
  nodup : (nodeIdsOf st.trace).Nodup
  clients : ∀ c, ("client_" ++ c) ∈ nodeIdsOf st.trace ↔ c ∈ st.seen_clients
  matters : ∀ m, ("matter_" ++ m) ∈ nodeIdsOf st.trace ↔ m ∈ st.seen_matters
  seenC_nodup : st.seen_clients.Nodup
  seenM_nodup : st.seen_matters.Nodup
  callsC : st.client_calls = st.seen_clients
  callsM : st.matter_calls = st.seen_matters

/-- The invariant for `get_vendor_matter_network`'s collections. -/
structure VenInv (st : VenState) : Prop where
  ground : EdgesGrounded st.trace
  nodup : (nodeIdsOf st.trace).Nodup
  vendors : ∀ v, ("vendor_" ++ v) ∈ nodeIdsOf st.trace ↔ v ∈ st.seen_vendors
  matters : ∀ m, ("matter_" ++ m) ∈ nodeIdsOf st.trace ↔ m ∈ st.seen_matters
  clients : ∀ c, ("client_" ++ c) ∈ nodeIdsOf st.trace ↔ c ∈ st.seen_clients
  seenV_nodup : st.seen_vendors.Nodup
  seenM_nodup : st.seen_matters.Nodup
  seenC_nodup : st.seen_clients.Nodup
  callsV : st.vendor_calls = st.seen_vendors

/-- The invariant for `get_staff_workload_network`'s collections. -/
structure StaffInv (st : StaffState) : Prop where
  ground : EdgesGrounded st.trace
  nodup : (nodeIdsOf st.trace).Nodup
  staffs : ∀ s, ("staff_" ++ s) ∈ nodeIdsOf st.trace ↔ s ∈ st.seen_staff
  depts : ∀ d, ("dept_" ++ d) ∈ nodeIdsOf st.trace ↔ d ∈ st.seen_departments
  matters : ∀ m, ("matter_" ++ m) ∈ nodeIdsOf st.trace ↔ m ∈ st.seen_matters
  seenS_nodup : st.seen_staff.Nodup
  seenD_nodup : st.seen_departments.Nodup
  seenM_nodup : st.seen_matters.Nodup
  callsS : st.staff_calls = st.seen_staff

/-! ### Concrete instances used by witnesses -/

/-- A concrete family row: clients A and B, one matter owned by A. -/
def rowW : FamilyRow := ⟨"A", "Alice", "B", "Bob", ["M1"], [], 1⟩

/-- A second concrete family row referencing client A again, under a
different display name. -/
def rowW2 : FamilyRow := ⟨"A", "Alicia", "C", "Cara", [], [], 0⟩

/-- A concrete client-metrics lookup answering only for client A. -/
def cmW : String → Option ClientMetrics := fun c =>
  if c = "A" then some ⟨3, 120000, 40000⟩ else none

/-- A second client-metrics lookup agreeing with `cmW` on A and B only. -/
def cmW2 : String → Option ClientMetrics := fun c =>
  if c = "A" then some ⟨3, 120000, 40000⟩
  else if c = "Z" then some ⟨9, 9, 9⟩ else none

/-- A concrete matter-data lookup that always misses. -/
def mdW : String → Option MatterData := fun _ => none

/-- A concrete vendor row. -/
def venRowW : VendorRow :=
  ⟨"V1", "Acme Experts", "forensics", "M7", "Slip and fall", 80000,
   "C9", "Carol", 2500, "analysis"⟩

/-- A concrete vendor-metrics lookup that always misses. -/
def vmW : String → Option VendorMetrics := fun _ => none

/-- A concrete staff row. -/
def staffRowW : StaffRow :=
  ⟨"S1", "Dana", "paralegal", "D2", "Litigation", "M7", "Slip and fall",
   "Active", "C9", "Carol"⟩

/-- A concrete staff-metrics lookup that always misses. -/
def smW : String → Option StaffAgg := fun _ => none

/-! ### Generic lemmas: namespaced ids, traces, groundedness -/

/-- A fixed leading string cancels on the left of `++`. -/
theorem append_left_inj (p a b : String) (h : p ++ a = p ++ b) : a = b := by
  have h0 := congrArg String.data h
  rw [String.data_append, String.data_append] at h0
  exact String.ext (List.append_cancel_left h0)

/-- Strings with distinct leading characters stay distinct under any
right extension. -/
theorem append_ne_of_data (p q a b : String) (x y : Char) (xs ys : List Char)
    (hp : p.data = x :: xs) (hq : q.data = y :: ys) (hxy : x ≠ y) :
    p ++ a ≠ q ++ b := by
  intro h
  have h0 := congrArg (fun s => s.data.head?) h
  simp only [String.data_append, hp, hq, List.cons_append, List.head?_cons] at h0
  exact hxy (Option.some.inj h0)

/-- `client_`-ids and `matter_`-ids never collide. -/
theorem client_ne_matter (a b : String) : "client_" ++ a ≠ "matter_" ++ b :=
  append_ne_of_data _ _ a b 'c' 'm' "lient_".data "atter_".data rfl rfl (by decide)

/-- `vendor_`-ids and `matter_`-ids never collide. -/
theorem vendor_ne_matter (a b : String) : "vendor_" ++ a ≠ "matter_" ++ b :=
  append_ne_of_data _ _ a b 'v' 'm' "endor_".data "atter_".data rfl rfl (by decide)

/-- `vendor_`-ids and `client_`-ids never collide. -/
theorem vendor_ne_client (a b : String) : "vendor_" ++ a ≠ "client_" ++ b :=
  append_ne_of_data _ _ a b 'v' 'c' "endor_".data "lient_".data rfl rfl (by decide)

/-- `staff_`-ids and `dept_`-ids never collide. -/
theorem staff_ne_dept (a b : String) : "staff_" ++ a ≠ "dept_" ++ b :=
  append_ne_of_data _ _ a b 's' 'd' "taff_".data "ept_".data rfl rfl (by decide)

/-- `staff_`-ids and `matter_`-ids never collide. -/
theorem staff_ne_matter (a b : String) : "staff_" ++ a ≠ "matter_" ++ b :=
  append_ne_of_data _ _ a b 's' 'm' "taff_".data "atter_".data rfl rfl (by decide)

/-- `dept_`-ids and `matter_`-ids never collide. -/
theorem dept_ne_matter (a b : String) : "dept_" ++ a ≠ "matter_" ++ b :=
  append_ne_of_data _ _ a b 'd' 'm' "ept_".data "atter_".data rfl rfl (by decide)

theorem nodesOf_append (s t : List Element) :
    nodesOf (s ++ t) = nodesOf s ++ nodesOf t := by
  simp [nodesOf]

theorem edgesOf_append (s t : List Element) :
    edgesOf (s ++ t) = edgesOf s ++ edgesOf t := by
  simp [edgesOf]

theorem nodeIdsOf_append (s t : List Element) :
    nodeIdsOf (s ++ t) = nodeIdsOf s ++ nodeIdsOf t := by
  simp [nodeIdsOf, nodesOf_append]

@[simp] theorem nodesOf_nil : nodesOf [] = [] := rfl

@[simp] theorem edgesOf_nil : edgesOf [] = [] := rfl

@[simp] theorem nodesOf_node (n : Node) (t : List Element) :
    nodesOf (.node n :: t) = n :: nodesOf t := rfl

@[simp] theorem nodesOf_edge (e : Edge) (t : List Element) :
    nodesOf (.edge e :: t) = nodesOf t := rfl

@[simp] theorem edgesOf_node (n : Node) (t : List Element) :
    edgesOf (.node n :: t) = edgesOf t := rfl

@[simp] theorem edgesOf_edge (e : Edge) (t : List Element) :
    edgesOf (.edge e :: t) = e :: edgesOf t := rfl

theorem mem_nodeIdsOf_left (x : String) (s t : List Element)
    (h : x ∈ nodeIdsOf s) : x ∈ nodeIdsOf (s ++ t) := by
  rw [nodeIdsOf_append]; exact List.mem_append_left _ h

theorem mem_nodeIdsOf_snoc_self (t : List Element) (n : Node) :
    n.id ∈ nodeIdsOf (t ++ [.node n]) := by
  rw [nodeIdsOf_append]
  exact List.mem_append_right _ (by simp [nodeIdsOf, nodesOf])

/-- Groundedness of the empty trace. -/
theorem edgesGrounded_nil : EdgesGrounded [] := by
  intro pre e post h
  exact absurd h (by cases pre <;> simp)

/-- The workhorse: extending a grounded trace by a block keeps it
grounded when every edge of the block is grounded relative to the trace
plus the block part before it. -/
theorem edgesGrounded_append (t u : List Element) (h : EdgesGrounded t)
    (hu : ∀ pre e post, u = pre ++ Element.edge e :: post →
      e.source ∈ nodeIdsOf (t ++ pre) ∧ e.target ∈ nodeIdsOf (t ++ pre)) :
    EdgesGrounded (t ++ u) := by
  intro pre e post hsplit
  rcases List.append_eq_append_iff.mp hsplit with ⟨w, hw1, hw2⟩ | ⟨w, hw1, hw2⟩
  · -- the edge lies within `u`
    subst hw1
    exact hu w e post hw2
  · -- `t = pre ++ w`; the edge heads `w ++ u`
    cases w with
    | nil =>
      have := hu [] e post (by simpa using hw2.symm)
      simpa [hw1] using this
    | cons a w' =>
      have ha : a = Element.edge e := by
        have := congrArg (fun l => l.head?) hw2
        simpa using this.symm
      have hw2' : post = w' ++ u := by
        have := congrArg List.tail hw2
        simpa using this
      exact h pre e w' (by rw [hw1, ha])

/-- Appending a node keeps a trace grounded. -/
theorem edgesGrounded_snoc_node (t : List Element) (n : Node)
    (h : EdgesGrounded t) : EdgesGrounded (t ++ [.node n]) := by
  refine edgesGrounded_append t _ h ?_
  intro pre e post hsplit
  exact absurd hsplit (by
    cases pre with
    | nil => simp
    | cons a pre' => cases pre' <;> simp)

/-- Appending an edge whose endpoints already have nodes keeps a trace
grounded. -/
theorem edgesGrounded_snoc_edge (t : List Element) (e : Edge)
    (h : EdgesGrounded t) (hs : e.source ∈ nodeIdsOf t)
    (ht : e.target ∈ nodeIdsOf t) : EdgesGrounded (t ++ [.edge e]) := by
  refine edgesGrounded_append t _ h ?_
  intro pre e' post hsplit
  cases pre with
  | nil =>
    simp only [List.nil_append, List.cons.injEq] at hsplit
    obtain ⟨he, hp⟩ := hsplit
    cases Element.edge.inj he
    constructor <;> simpa
  | cons a pre' =>
    exact absurd hsplit (by cases pre' <;> simp)

/-- A grounded trace references only node ids present in it. -/
theorem edgesGrounded_mem (t : List Element) (h : EdgesGrounded t) :
    ∀ e ∈ edgesOf t, e.source ∈ nodeIdsOf t ∧ e.target ∈ nodeIdsOf t := by
  intro e he
  obtain ⟨x, hx, hfe⟩ := List.mem_filterMap.mp he
  have hxe : x = Element.edge e := by
    cases x with
    | node n => simp at hfe
    | edge e' => simp at hfe; rw [hfe]
  subst hxe
  obtain ⟨pre, post, hsplit⟩ := List.append_of_mem hx
  have := h pre e post hsplit
  constructor
  · rw [hsplit, nodeIdsOf_append]; exact List.mem_append_left _ this.1
  · rw [hsplit, nodeIdsOf_append]; exact List.mem_append_left _ this.2

/-! ### Family network: loop invariant -/

theorem famInv_init : FamInv famInit := by
  refine ⟨edgesGrounded_nil, ?_, ?_, ?_, ?_, ?_, rfl, rfl⟩ <;>
    simp [famInit, nodeIdsOf, nodesOf]

@[simp] theorem famAddClient_seenMatters (cm : String → Option ClientMetrics)
    (cid nm : String) (st : FamState) :
    (famAddClient cm cid nm st).seen_matters = st.seen_matters := by
  unfold famAddClient; split <;> rfl

theorem famAddClient_mem_seen (cm : String → Option ClientMetrics)
    (cid nm : String) (st : FamState) (x : String) :
    x ∈ (famAddClient cm cid nm st).seen_clients ↔
      x ∈ st.seen_clients ∨ x = cid := by
  unfold famAddClient
  split
  · rename_i h
    constructor
    · exact fun hx => Or.inl hx
    · rintro (hx | rfl) <;> [exact hx; exact h]
  · simp

@[simp] theorem famAddMatter_seenClients (md : String → Option MatterData)
    (cid : String) (st : FamState) (mid : String) :
    (famAddMatter md cid st mid).seen_clients = st.seen_clients := by
  unfold famAddMatter; split <;> rfl

theorem famAddMatter_mem_seen (md : String → Option MatterData)
    (cid : String) (st : FamState) (mid x : String) :
    x ∈ (famAddMatter md cid st mid).seen_matters ↔
      x ∈ st.seen_matters ∨ x = mid := by
  unfold famAddMatter
  split
  · rename_i h
    constructor
    · exact fun hx => Or.inl hx
    · rintro (hx | rfl) <;> [exact hx; exact h]
  · simp

theorem nodup_snoc (l : List String) (a : String) (h : l.Nodup) (ha : a ∉ l) :
    (l ++ [a]).Nodup := by
  simp [List.nodup_append, h, ha]

theorem nodeIdsOf_single_node (n : Node) : nodeIdsOf [Element.node n] = [n.id] := by
  simp [nodeIdsOf, nodesOf]

theorem famInv_addClient (cm : String → Option ClientMetrics)
    (cid nm : String) (st : FamState) (h : FamInv st) :
    FamInv (famAddClient cm cid nm st) := by
  unfold famAddClient
  split
  · exact h
  · rename_i hns
    have hidnew : ("client_" ++ cid) ∉ nodeIdsOf st.trace := fun hc =>
      hns ((h.clients cid).mp hc)
    refine ⟨?_, ?_, ?_, ?_, ?_, h.seenM_nodup, ?_, h.callsM⟩
    · exact edgesGrounded_snoc_node _ _ h.ground
    · rw [nodeIdsOf_append, nodeIdsOf_single_node]
      exact nodup_snoc _ _ h.nodup hidnew
    · intro c
      rw [nodeIdsOf_append, nodeIdsOf_single_node]
      simp only [List.mem_append, List.mem_singleton, clientNode]
      constructor
      · rintro (hc | hc)
        · exact Or.inl ((h.clients c).mp hc)
        · exact Or.inr (append_left_inj _ _ _ hc)
      · rintro (hc | rfl)
        · exact Or.inl ((h.clients c).mpr hc)
        · exact Or.inr rfl
    · intro m
      rw [nodeIdsOf_append, nodeIdsOf_single_node]
      simp only [List.mem_append, List.mem_singleton, clientNode]
      constructor
      · rintro (hm | hm)
        · exact (h.matters m).mp hm
        · exact absurd hm.symm (client_ne_matter cid m)
      · exact fun hm => Or.inl ((h.matters m).mpr hm)
    · exact nodup_snoc _ _ h.seenC_nodup hns
    · rw [h.callsC]

theorem nodeIdsOf_node_edge (n : Node) (e : Edge) :
    nodeIdsOf [Element.node n, Element.edge e] = [n.id] := by
  simp [nodeIdsOf, nodesOf]

theorem nodeIdsOf_snoc_edge (t : List Element) (e : Edge) :
    nodeIdsOf (t ++ [.edge e]) = nodeIdsOf t := by
  rw [nodeIdsOf_append]; simp [nodeIdsOf, nodesOf]

theorem famInv_addMatter (md : String → Option MatterData)
    (cid : String) (st : FamState) (mid : String) (h : FamInv st)
    (hc : cid ∈ st.seen_clients) : FamInv (famAddMatter md cid st mid) := by
  unfold famAddMatter
  split
  · exact h
  · rename_i hns
    have hidnew : ("matter_" ++ mid) ∉ nodeIdsOf st.trace := fun hm =>
      hns ((h.matters mid).mp hm)
    have hsrc : ("client_" ++ cid) ∈ nodeIdsOf st.trace := (h.clients cid).mpr hc
    refine ⟨?_, ?_, ?_, ?_, h.seenC_nodup, ?_, h.callsC, ?_⟩
    · have hsplit : st.trace ++ [Element.node (famMatterNode md mid),
          Element.edge (ownsEdge cid mid)] =
          (st.trace ++ [Element.node (famMatterNode md mid)]) ++
            [Element.edge (ownsEdge cid mid)] := by simp
      rw [hsplit]
      refine edgesGrounded_snoc_edge _ _ (edgesGrounded_snoc_node _ _ h.ground) ?_ ?_
      · exact mem_nodeIdsOf_left _ _ _ hsrc
      · rw [nodeIdsOf_append, nodeIdsOf_single_node]
        exact List.mem_append_right _ (by simp [famMatterNode, ownsEdge])
    · rw [nodeIdsOf_append, nodeIdsOf_node_edge]
      exact nodup_snoc _ _ h.nodup hidnew
    · intro c
      rw [nodeIdsOf_append, nodeIdsOf_node_edge]
      simp only [List.mem_append, List.mem_singleton, famMatterNode]
      constructor
      · rintro (hc' | hc')
        · exact (h.clients c).mp hc'
        · exact absurd hc' (client_ne_matter c mid)
      · exact fun hc' => Or.inl ((h.clients c).mpr hc')
    · intro m
      rw [nodeIdsOf_append, nodeIdsOf_node_edge]
      simp only [List.mem_append, List.mem_singleton, famMatterNode]
      constructor
      · rintro (hm | hm)
        · exact Or.inl ((h.matters m).mp hm)
        · exact Or.inr (append_left_inj _ _ _ hm)
      · rintro (hm | rfl)
        · exact Or.inl ((h.matters m).mpr hm)
        · exact Or.inr rfl
    · exact nodup_snoc _ _ h.seenM_nodup hns
    · rw [h.callsM]

theorem famInv_addFamilyEdge (st : FamState) (r : FamilyRow) (h : FamInv st)
    (h1 : r.client1_id ∈ st.seen_clients) (h2 : r.client2_id ∈ st.seen_clients) :
    FamInv { st with trace := st.trace ++ [.edge (familyEdge r)] } := by
  refine ⟨?_, ?_, ?_, ?_, h.seenC_nodup, h.seenM_nodup, h.callsC, h.callsM⟩
  · exact edgesGrounded_snoc_edge _ _ h.ground
      ((h.clients _).mpr h1) ((h.clients _).mpr h2)
  · rw [nodeIdsOf_snoc_edge]; exact h.nodup
  · intro c; rw [nodeIdsOf_snoc_edge]; exact h.clients c
  · intro m; rw [nodeIdsOf_snoc_edge]; exact h.matters m

theorem matterFold_seenClients (md : String → Option MatterData)
    (cid : String) (ms : List String) (st : FamState) :
    (ms.foldl (famAddMatter md cid) st).seen_clients = st.seen_clients := by
  induction ms generalizing st with
  | nil => rfl
  | cons m ms ih => rw [List.foldl_cons, ih, famAddMatter_seenClients]

theorem famInv_matterFold (md : String → Option MatterData)
    (cid : String) (ms : List String) (st : FamState) (h : FamInv st)
    (hc : cid ∈ st.seen_clients) :
    FamInv (ms.foldl (famAddMatter md cid) st) := by
  induction ms generalizing st with
  | nil => exact h
  | cons m ms ih =>
    rw [List.foldl_cons]
    refine ih _ (famInv_addMatter md cid st m h hc) ?_
    rw [famAddMatter_seenClients]; exact hc

theorem famInv_step (cm : String → Option ClientMetrics)
    (md : String → Option MatterData) (st : FamState) (r : FamilyRow)
    (h : FamInv st) : FamInv (famStep cm md st r) := by
  unfold famStep
  have h1 := famInv_addClient cm r.client1_id r.client1_name st h
  have h2 := famInv_addClient cm r.client2_id r.client2_name _ h1
  have hc1 : r.client1_id ∈ (famAddClient cm r.client2_id r.client2_name
      (famAddClient cm r.client1_id r.client1_name st)).seen_clients := by
    rw [famAddClient_mem_seen]
    exact Or.inl ((famAddClient_mem_seen _ _ _ _ _).mpr (Or.inr rfl))
  have hc2 : r.client2_id ∈ (famAddClient cm r.client2_id r.client2_name
      (famAddClient cm r.client1_id r.client1_name st)).seen_clients :=
    (famAddClient_mem_seen _ _ _ _ _).mpr (Or.inr rfl)
  have h3 := famInv_addFamilyEdge _ r h2 hc1 hc2
  have h4 := famInv_matterFold md r.client1_id r.client1_matters _ h3 hc1
  refine famInv_matterFold md r.client2_id r.client2_matters _ h4 ?_
  rw [matterFold_seenClients]
  exact hc2

theorem famInv_foldFrom (cm : String → Option ClientMetrics)
    (md : String → Option MatterData) (rows : List FamilyRow) (st : FamState)
    (h : FamInv st) : FamInv (rows.foldl (famStep cm md) st) := by
  induction rows generalizing st with
  | nil => exact h
  | cons r rows ih => exact ih _ (famInv_step cm md st r h)

theorem famInv_fold (cm : String → Option ClientMetrics)
    (md : String → Option MatterData) (rows : List FamilyRow) :
    FamInv (famFold cm md rows) :=
  famInv_foldFrom cm md rows famInit famInv_init

/-! ### Vendor network: loop invariant -/

theorem venInv_init : VenInv venInit := by
  refine ⟨edgesGrounded_nil, ?_, ?_, ?_, ?_, ?_, ?_, ?_, rfl⟩ <;>
    simp [venInit, nodeIdsOf, nodesOf]

@[simp] theorem venAddVendor_seenMatters (vm : String → Option VendorMetrics)
    (st : VenState) (r : VendorRow) :
    (venAddVendor vm st r).seen_matters = st.seen_matters := by
  unfold venAddVendor; split <;> rfl

@[simp] theorem venAddVendor_seenClients (vm : String → Option VendorMetrics)
    (st : VenState) (r : VendorRow) :
    (venAddVendor vm st r).seen_clients = st.seen_clients := by
  unfold venAddVendor; split <;> rfl

theorem venAddVendor_mem_seen (vm : String → Option VendorMetrics)
    (st : VenState) (r : VendorRow) (x : String) :
    x ∈ (venAddVendor vm st r).seen_vendors ↔
      x ∈ st.seen_vendors ∨ x = r.vendor_id := by
  unfold venAddVendor
  split
  · rename_i h
    constructor
    · exact fun hx => Or.inl hx
    · rintro (hx | rfl) <;> [exact hx; exact h]
  · simp

@[simp] theorem venAddMatter_seenVendors (st : VenState) (r : VendorRow) :
    (venAddMatter st r).seen_vendors = st.seen_vendors := by
  unfold venAddMatter; split <;> rfl

@[simp] theorem venAddMatter_seenClients (st : VenState) (r : VendorRow) :
    (venAddMatter st r).seen_clients = st.seen_clients := by
  unfold venAddMatter; split <;> rfl

theorem venAddMatter_mem_seen (st : VenState) (r : VendorRow) (x : String) :
    x ∈ (venAddMatter st r).seen_matters ↔
      x ∈ st.seen_matters ∨ x = r.matter_id := by
  unfold venAddMatter
  split
  · rename_i h
    constructor
    · exact fun hx => Or.inl hx
    · rintro (hx | rfl) <;> [exact hx; exact h]
  · simp

@[simp] theorem venAddClient_seenVendors (st : VenState) (r : VendorRow) :
    (venAddClient st r).seen_vendors = st.seen_vendors := by
  unfold venAddClient; split <;> rfl

@[simp] theorem venAddClient_seenMatters (st : VenState) (r : VendorRow) :
    (venAddClient st r).seen_matters = st.seen_matters := by
  unfold venAddClient; split <;> rfl

theorem venInv_addVendor (vm : String → Option VendorMetrics)
    (st : VenState) (r : VendorRow) (h : VenInv st) :
    VenInv (venAddVendor vm st r) := by
  unfold venAddVendor
  split
  · exact h
  · rename_i hns
    have hidnew : ("vendor_" ++ r.vendor_id) ∉ nodeIdsOf st.trace := fun hv =>
      hns ((h.vendors r.vendor_id).mp hv)
    refine ⟨?_, ?_, ?_, ?_, ?_, ?_, h.seenM_nodup, h.seenC_nodup, ?_⟩
    · exact edgesGrounded_snoc_node _ _ h.ground
    · rw [nodeIdsOf_append, nodeIdsOf_single_node]
      exact nodup_snoc _ _ h.nodup hidnew
    · intro v
      rw [nodeIdsOf_append, nodeIdsOf_single_node]
      simp only [List.mem_append, List.mem_singleton, vendorNode]
      constructor
      · rintro (hv | hv)
        · exact Or.inl ((h.vendors v).mp hv)
        · exact Or.inr (append_left_inj _ _ _ hv)
      · rintro (hv | rfl)
        · exact Or.inl ((h.vendors v).mpr hv)
        · exact Or.inr rfl
    · intro m
      rw [nodeIdsOf_append, nodeIdsOf_single_node]
      simp only [List.mem_append, List.mem_singleton, vendorNode]
      constructor
      · rintro (hm | hm)
        · exact (h.matters m).mp hm
        · exact absurd hm.symm (vendor_ne_matter r.vendor_id m)
      · exact fun hm => Or.inl ((h.matters m).mpr hm)
    · intro c
      rw [nodeIdsOf_append, nodeIdsOf_single_node]
      simp only [List.mem_append, List.mem_singleton, vendorNode]
      constructor
      · rintro (hc | hc)
        · exact (h.clients c).mp hc
        · exact absurd hc.symm (vendor_ne_client r.vendor_id c)
      · exact fun hc => Or.inl ((h.clients c).mpr hc)
    · exact nodup_snoc _ _ h.seenV_nodup hns
    · rw [h.callsV]

theorem venInv_addMatter (st : VenState) (r : VendorRow) (h : VenInv st) :
    VenInv (venAddMatter st r) := by
  unfold venAddMatter
  split
  · exact h
  · rename_i hns
    have hidnew : ("matter_" ++ r.matter_id) ∉ nodeIdsOf st.trace := fun hm =>
      hns ((h.matters r.matter_id).mp hm)
    refine ⟨?_, ?_, ?_, ?_, ?_, h.seenV_nodup, ?_, h.seenC_nodup, h.callsV⟩
    · exact edgesGrounded_snoc_node _ _ h.ground
    · rw [nodeIdsOf_append, nodeIdsOf_single_node]
      exact nodup_snoc _ _ h.nodup hidnew
    · intro v
      rw [nodeIdsOf_append, nodeIdsOf_single_node]
      simp only [List.mem_append, List.mem_singleton, venMatterNode]
      constructor
      · rintro (hv | hv)
        · exact (h.vendors v).mp hv
        · exact absurd hv (vendor_ne_matter v r.matter_id)
      · exact fun hv => Or.inl ((h.vendors v).mpr hv)
    · intro m
      rw [nodeIdsOf_append, nodeIdsOf_single_node]
      simp only [List.mem_append, List.mem_singleton, venMatterNode]
      constructor
      · rintro (hm | hm)
        · exact Or.inl ((h.matters m).mp hm)
        · exact Or.inr (append_left_inj _ _ _ hm)
      · rintro (hm | rfl)
        · exact Or.inl ((h.matters m).mpr hm)
        · exact Or.inr rfl
    · intro c
      rw [nodeIdsOf_append, nodeIdsOf_single_node]
      simp only [List.mem_append, List.mem_singleton, venMatterNode]
      constructor
      · rintro (hc | hc)
        · exact (h.clients c).mp hc
        · exact absurd hc (client_ne_matter c r.matter_id)
      · exact fun hc => Or.inl ((h.clients c).mpr hc)
    · exact nodup_snoc _ _ h.seenM_nodup hns

theorem venInv_addClient (st : VenState) (r : VendorRow) (h : VenInv st)
    (hm : r.matter_id ∈ st.seen_matters) : VenInv (venAddClient st r) := by
  unfold venAddClient
  split
  · exact h
  · rename_i hns
    have hidnew : ("client_" ++ r.client_id) ∉ nodeIdsOf st.trace := fun hc =>
      hns ((h.clients r.client_id).mp hc)
    have htgt : ("matter_" ++ r.matter_id) ∈ nodeIdsOf st.trace :=
      (h.matters r.matter_id).mpr hm
    refine ⟨?_, ?_, ?_, ?_, ?_, h.seenV_nodup, h.seenM_nodup, ?_, h.callsV⟩
    · have hsplit : st.trace ++ [Element.node (venClientNode r),
          Element.edge (ownsEdge r.client_id r.matter_id)] =
          (st.trace ++ [Element.node (venClientNode r)]) ++
            [Element.edge (ownsEdge r.client_id r.matter_id)] := by simp
      rw [hsplit]
      refine edgesGrounded_snoc_edge _ _ (edgesGrounded_snoc_node _ _ h.ground) ?_ ?_
      · rw [nodeIdsOf_append, nodeIdsOf_single_node]
        exact List.mem_append_right _ (by simp [venClientNode, ownsEdge])
      · exact mem_nodeIdsOf_left _ _ _ htgt
    · rw [nodeIdsOf_append, nodeIdsOf_node_edge]
      exact nodup_snoc _ _ h.nodup hidnew
    · intro v
      rw [nodeIdsOf_append, nodeIdsOf_node_edge]
      simp only [List.mem_append, List.mem_singleton, venClientNode]
      constructor
      · rintro (hv | hv)
        · exact (h.vendors v).mp hv
        · exact absurd hv (vendor_ne_client v r.client_id)
      · exact fun hv => Or.inl ((h.vendors v).mpr hv)
    · intro m
      rw [nodeIdsOf_append, nodeIdsOf_node_edge]
      simp only [List.mem_append, List.mem_singleton, venClientNode]
      constructor
      · rintro (hm' | hm')
        · exact (h.matters m).mp hm'
        · exact absurd hm'.symm (client_ne_matter r.client_id m)
      · exact fun hm' => Or.inl ((h.matters m).mpr hm')
    · intro c
      rw [nodeIdsOf_append, nodeIdsOf_node_edge]
      simp only [List.mem_append, List.mem_singleton, venClientNode]
      constructor
      · rintro (hc | hc)
        · exact Or.inl ((h.clients c).mp hc)
        · exact Or.inr (append_left_inj _ _ _ hc)
      · rintro (hc | rfl)
        · exact Or.inl ((h.clients c).mpr hc)
        · exact Or.inr rfl
    · exact nodup_snoc _ _ h.seenC_nodup hns

theorem venInv_step (vm : String → Option VendorMetrics) (st : VenState)
    (r : VendorRow) (h : VenInv st) : VenInv (venStep vm st r) := by
  unfold venStep
  have h1 := venInv_addVendor vm st r h
  have h2 := venInv_addMatter _ r h1
  have hm2 : r.matter_id ∈ (venAddMatter (venAddVendor vm st r) r).seen_matters :=
    (venAddMatter_mem_seen _ _ _).mpr (Or.inr rfl)
  have h3 := venInv_addClient _ r h2 hm2
  have hv3 : r.vendor_id ∈ (venAddClient (venAddMatter (venAddVendor vm st r) r) r).seen_vendors := by
    rw [venAddClient_seenVendors, venAddMatter_seenVendors]
    exact (venAddVendor_mem_seen _ _ _ _).mpr (Or.inr rfl)
  have hm3 : r.matter_id ∈ (venAddClient (venAddMatter (venAddVendor vm st r) r) r).seen_matters := by
    rw [venAddClient_seenMatters]
    exact hm2
  refine ⟨?_, ?_, ?_, ?_, ?_, h3.seenV_nodup, h3.seenM_nodup, h3.seenC_nodup, h3.callsV⟩
  · exact edgesGrounded_snoc_edge _ _ h3.ground
      ((h3.vendors _).mpr hv3) ((h3.matters _).mpr hm3)
  · rw [nodeIdsOf_snoc_edge]; exact h3.nodup
  · intro v; rw [nodeIdsOf_snoc_edge]; exact h3.vendors v
  · intro m; rw [nodeIdsOf_snoc_edge]; exact h3.matters m
  · intro c; rw [nodeIdsOf_snoc_edge]; exact h3.clients c

theorem venInv_foldFrom (vm : String → Option VendorMetrics)
    (rows : List VendorRow) (st : VenState) (h : VenInv st) :
    VenInv (rows.foldl (venStep vm) st) := by
  induction rows generalizing st with
  | nil => exact h
  | cons r rows ih => exact ih _ (venInv_step vm st r h)

theorem venInv_fold (vm : String → Option VendorMetrics) (rows : List VendorRow) :
    VenInv (venFold vm rows) :=
  venInv_foldFrom vm rows venInit venInv_init

/-! ### Staff network: loop invariant -/

theorem staffInv_init : StaffInv staffInit := by
  refine ⟨edgesGrounded_nil, ?_, ?_, ?_, ?_, ?_, ?_, ?_, rfl⟩ <;>
    simp [staffInit, nodeIdsOf, nodesOf]

@[simp] theorem staffAddStaff_seenDepts (sm : String → Option StaffAgg)
    (st : StaffState) (r : StaffRow) :
    (staffAddStaff sm st r).seen_departments = st.seen_departments := by
  unfold staffAddStaff; split <;> rfl

@[simp] theorem staffAddStaff_seenMatters (sm : String → Option StaffAgg)
    (st : StaffState) (r : StaffRow) :
    (staffAddStaff sm st r).seen_matters = st.seen_matters := by
  unfold staffAddStaff; split <;> rfl

@[simp] theorem staffAddStaff_workloads (sm : String → Option StaffAgg)
    (st : StaffState) (r : StaffRow) :
    (staffAddStaff sm st r).workloads = st.workloads := by
  unfold staffAddStaff; split <;> rfl

theorem staffAddStaff_mem_seen (sm : String → Option StaffAgg)
    (st : StaffState) (r : StaffRow) (x : String) :
    x ∈ (staffAddStaff sm st r).seen_staff ↔
      x ∈ st.seen_staff ∨ x = r.staff_id := by
  unfold staffAddStaff
  split
  · rename_i h
    constructor
    · exact fun hx => Or.inl hx
    · rintro (hx | rfl) <;> [exact hx; exact h]
  · simp

@[simp] theorem staffAddDept_seenStaff (st : StaffState) (r : StaffRow) :
    (staffAddDept st r).seen_staff = st.seen_staff := by
  unfold staffAddDept; split <;> rfl

@[simp] theorem staffAddDept_seenMatters (st : StaffState) (r : StaffRow) :
    (staffAddDept st r).seen_matters = st.seen_matters := by
  unfold staffAddDept; split <;> rfl

@[simp] theorem staffAddDept_workloads (st : StaffState) (r : StaffRow) :
    (staffAddDept st r).workloads = st.workloads := by
  unfold staffAddDept; split <;> rfl

@[simp] theorem staffAddMatter_seenStaff (st : StaffState) (r : StaffRow) :
    (staffAddMatter st r).seen_staff = st.seen_staff := by
  unfold staffAddMatter; split <;> rfl

@[simp] theorem staffAddMatter_workloads (st : StaffState) (r : StaffRow) :
    (staffAddMatter st r).workloads = st.workloads := by
  unfold staffAddMatter; split <;> rfl

theorem staffInv_addStaff (sm : String → Option StaffAgg) (st : StaffState)
    (r : StaffRow) (h : StaffInv st) : StaffInv (staffAddStaff sm st r) := by
  unfold staffAddStaff
  split
  · exact h
  · rename_i hns
    have hidnew : ("staff_" ++ r.staff_id) ∉ nodeIdsOf st.trace := fun hs =>
      hns ((h.staffs r.staff_id).mp hs)
    refine ⟨?_, ?_, ?_, ?_, ?_, ?_, h.seenD_nodup, h.seenM_nodup, ?_⟩
    · exact edgesGrounded_snoc_node _ _ h.ground
    · rw [nodeIdsOf_append, nodeIdsOf_single_node]
      exact nodup_snoc _ _ h.nodup hidnew
    · intro s
      rw [nodeIdsOf_append, nodeIdsOf_single_node]
      simp only [List.mem_append, List.mem_singleton, staffNode]
      constructor
      · rintro (hs | hs)
        · exact Or.inl ((h.staffs s).mp hs)
        · exact Or.inr (append_left_inj _ _ _ hs)
      · rintro (hs | rfl)
        · exact Or.inl ((h.staffs s).mpr hs)
        · exact Or.inr rfl
    · intro d
      rw [nodeIdsOf_append, nodeIdsOf_single_node]
      simp only [List.mem_append, List.mem_singleton, staffNode]
      constructor
      · rintro (hd | hd)
        · exact (h.depts d).mp hd
        · exact absurd hd.symm (staff_ne_dept r.staff_id d)
      · exact fun hd => Or.inl ((h.depts d).mpr hd)
    · intro m
      rw [nodeIdsOf_append, nodeIdsOf_single_node]
      simp only [List.mem_append, List.mem_singleton, staffNode]
      constructor
      · rintro (hm | hm)
        · exact (h.matters m).mp hm
        · exact absurd hm.symm (staff_ne_matter r.staff_id m)
      · exact fun hm => Or.inl ((h.matters m).mpr hm)
    · exact nodup_snoc _ _ h.seenS_nodup hns
    · rw [h.callsS]

theorem staffInv_addDept (st : StaffState) (r : StaffRow) (h : StaffInv st)
    (hs : r.staff_id ∈ st.seen_staff) : StaffInv (staffAddDept st r) := by
  unfold staffAddDept
  split
  · exact h
  · rename_i hns
    have hidnew : ("dept_" ++ r.dept_id) ∉ nodeIdsOf st.trace := fun hd =>
      hns ((h.depts r.dept_id).mp hd)
    have hsrc : ("staff_" ++ r.staff_id) ∈ nodeIdsOf st.trace :=
      (h.staffs r.staff_id).mpr hs
    refine ⟨?_, ?_, ?_, ?_, ?_, h.seenS_nodup, ?_, h.seenM_nodup, h.callsS⟩
    · have hsplit : st.trace ++ [Element.node (deptNode r),
          Element.edge (worksInEdge r)] =
          (st.trace ++ [Element.node (deptNode r)]) ++
            [Element.edge (worksInEdge r)] := by simp
      rw [hsplit]
      refine edgesGrounded_snoc_edge _ _ (edgesGrounded_snoc_node _ _ h.ground) ?_ ?_
      · exact mem_nodeIdsOf_left _ _ _ hsrc
      · rw [nodeIdsOf_append, nodeIdsOf_single_node]
        exact List.mem_append_right _ (by simp [deptNode, worksInEdge])
    · rw [nodeIdsOf_append, nodeIdsOf_node_edge]
      exact nodup_snoc _ _ h.nodup hidnew
    · intro s
      rw [nodeIdsOf_append, nodeIdsOf_node_edge]
      simp only [List.mem_append, List.mem_singleton, deptNode]
      constructor
      · rintro (hs' | hs')
        · exact (h.staffs s).mp hs'
        · exact absurd hs' (staff_ne_dept s r.dept_id)
      · exact fun hs' => Or.inl ((h.staffs s).mpr hs')
    · intro d
      rw [nodeIdsOf_append, nodeIdsOf_node_edge]
      simp only [List.mem_append, List.mem_singleton, deptNode]
      constructor
      · rintro (hd | hd)
        · exact Or.inl ((h.depts d).mp hd)
        · exact Or.inr (append_left_inj _ _ _ hd)
      · rintro (hd | rfl)
        · exact Or.inl ((h.depts d).mpr hd)
        · exact Or.inr rfl
    · intro m
      rw [nodeIdsOf_append, nodeIdsOf_node_edge]
      simp only [List.mem_append, List.mem_singleton, deptNode]
      constructor
      · rintro (hm | hm)
        · exact (h.matters m).mp hm
        · exact absurd hm.symm (dept_ne_matter r.dept_id m)
      · exact fun hm => Or.inl ((h.matters m).mpr hm)
    · exact nodup_snoc _ _ h.seenD_nodup hns

theorem staffInv_addMatter (st : StaffState) (r : StaffRow) (h : StaffInv st)
    (hs : r.staff_id ∈ st.seen_staff) : StaffInv (staffAddMatter st r) := by
  unfold staffAddMatter
  split
  · exact h
  · rename_i hns
    have hidnew : ("matter_" ++ r.matter_id) ∉ nodeIdsOf st.trace := fun hm =>
      hns ((h.matters r.matter_id).mp hm)
    have hsrc : ("staff_" ++ r.staff_id) ∈ nodeIdsOf st.trace :=
      (h.staffs r.staff_id).mpr hs
    refine ⟨?_, ?_, ?_, ?_, ?_, h.seenS_nodup, h.seenD_nodup, ?_, h.callsS⟩
    · have hsplit : st.trace ++ [Element.node (staffMatterNode r),
          Element.edge (assignedEdge r)] =
          (st.trace ++ [Element.node (staffMatterNode r)]) ++
            [Element.edge (assignedEdge r)] := by simp
      rw [hsplit]
      refine edgesGrounded_snoc_edge _ _ (edgesGrounded_snoc_node _ _ h.ground) ?_ ?_
      · exact mem_nodeIdsOf_left _ _ _ hsrc
      · rw [nodeIdsOf_append, nodeIdsOf_single_node]
        exact List.mem_append_right _ (by simp [staffMatterNode, assignedEdge])
    · rw [nodeIdsOf_append, nodeIdsOf_node_edge]
      exact nodup_snoc _ _ h.nodup hidnew
    · intro s
      rw [nodeIdsOf_append, nodeIdsOf_node_edge]
      simp only [List.mem_append, List.mem_singleton, staffMatterNode]
      constructor
      · rintro (hs' | hs')
        · exact (h.staffs s).mp hs'
        · exact absurd hs' (staff_ne_matter s r.matter_id)
      · exact fun hs' => Or.inl ((h.staffs s).mpr hs')
    · intro d
      rw [nodeIdsOf_append, nodeIdsOf_node_edge]
      simp only [List.mem_append, List.mem_singleton, staffMatterNode]
      constructor
      · rintro (hd | hd)
        · exact (h.depts d).mp hd
        · exact absurd hd (dept_ne_matter d r.matter_id)
      · exact fun hd => Or.inl ((h.depts d).mpr hd)
    · intro m
      rw [nodeIdsOf_append, nodeIdsOf_node_edge]
      simp only [List.mem_append, List.mem_singleton, staffMatterNode]
      constructor
      · rintro (hm | hm)
        · exact Or.inl ((h.matters m).mp hm)
        · exact Or.inr (append_left_inj _ _ _ hm)
      · rintro (hm | rfl)
        · exact Or.inl ((h.matters m).mpr hm)
        · exact Or.inr rfl
    · exact nodup_snoc _ _ h.seenM_nodup hns

theorem staffInv_bump (st : StaffState) (k : String) (h : StaffInv st) :
    StaffInv { st with workloads := bumpWorkload st.workloads k } :=
  ⟨h.ground, h.nodup, h.staffs, h.depts, h.matters, h.seenS_nodup,
   h.seenD_nodup, h.seenM_nodup, h.callsS⟩

theorem staffInv_step (sm : String → Option StaffAgg) (st : StaffState)
    (r : StaffRow) (h : StaffInv st) : StaffInv (staffStep sm st r) := by
  unfold staffStep
  have h0 := staffInv_bump st r.staff_id h
  have h1 := staffInv_addStaff sm _ r h0
  have hs1 : r.staff_id ∈ (staffAddStaff sm
      { st with workloads := bumpWorkload st.workloads r.staff_id } r).seen_staff :=
    (staffAddStaff_mem_seen _ _ _ _).mpr (Or.inr rfl)
  have h2 := staffInv_addDept _ r h1 hs1
  refine staffInv_addMatter _ r h2 ?_
  rw [staffAddDept_seenStaff]
  exact hs1

theorem staffInv_foldFrom (sm : String → Option StaffAgg)
    (rows : List StaffRow) (st : StaffState) (h : StaffInv st) :
    StaffInv (rows.foldl (staffStep sm) st) := by
  induction rows generalizing st with
  | nil => exact h
  | cons r rows ih => exact ih _ (staffInv_step sm st r h)

theorem staffInv_fold (sm : String → Option StaffAgg) (rows : List StaffRow) :
    StaffInv (staffFold sm rows) :=
  staffInv_foldFrom sm rows staffInit staffInv_init

/-! ### Payload projections -/

theorem nodesOf_map_node (ns : List Node) : nodesOf (ns.map Element.node) = ns := by
  induction ns with
  | nil => rfl
  | cons n ns ih => simp [ih]

theorem nodesOf_map_edge (es : List Edge) : nodesOf (es.map Element.edge) = [] := by
  induction es with
  | nil => rfl
  | cons e es ih => simp [ih]

theorem edgesOf_map_node (ns : List Node) : edgesOf (ns.map Element.node) = [] := by
  induction ns with
  | nil => rfl
  | cons n ns ih => simp [ih]

theorem edgesOf_map_edge (es : List Edge) : edgesOf (es.map Element.edge) = es := by
  induction es with
  | nil => rfl
  | cons e es ih => simp [ih]

theorem nodesOf_elements (ns : List Node) (es : List Edge) :
    nodesOf (ns.map Element.node ++ es.map Element.edge) = ns := by
  rw [nodesOf_append, nodesOf_map_node, nodesOf_map_edge, List.append_nil]

theorem edgesOf_elements (ns : List Node) (es : List Edge) :
    edgesOf (ns.map Element.node ++ es.map Element.edge) = es := by
  rw [edgesOf_append, edgesOf_map_node, edgesOf_map_edge, List.nil_append]

theorem nodeIdsOf_elements (ns : List Node) (es : List Edge) :
    nodeIdsOf (ns.map Element.node ++ es.map Element.edge) = ns.map Node.id := by
  rw [nodeIdsOf, nodesOf_elements]

theorem family_elements (cm : String → Option ClientMetrics)
    (md : String → Option MatterData) (rows : List FamilyRow) :
    (get_client_family_network cm md rows).elements =
      (nodesOf (famFold cm md rows).trace).map Element.node ++
      (edgesOf (famFold cm md rows).trace).map Element.edge := rfl

theorem vendor_elements (vm : String → Option VendorMetrics)
    (pa : Option String) (mv : Int) (rows : List VendorRow) :
    (get_vendor_matter_network vm pa mv rows).elements =
      (nodesOf (venFold vm rows).trace).map Element.node ++
      (edgesOf (venFold vm rows).trace).map Element.edge := rfl

theorem staff_elements (sm : String → Option StaffAgg)
    (dep : Option String) (rows : List StaffRow) :
    (get_staff_workload_network sm dep rows).elements =
      (nodesOf (staffFold sm rows).trace).map Element.node ++
      (edgesOf (staffFold sm rows).trace).map Element.edge := rfl

/-! ### Claims -/

/-- Claim C1: for every relationship-row sequence given to any of the
three aggregation functions, every edge record's source id and target id
appear as the id of some node record in the same returned payload, and
the node record an edge references is emitted before that edge is
appended (the interleaved emission trace is grounded). -/
theorem network_edges_reference_previously_emitted_nodes
    (cm : String → Option ClientMetrics) (md : String → Option MatterData)
    (frows : List FamilyRow) (vm : String → Option VendorMetrics)
    (pa : Option String) (mv : Int) (vrows : List VendorRow)
    (sm : String → Option StaffAgg) (dep : Option String)
    (srows : List StaffRow) :
    (EdgesGrounded (famFold cm md frows).trace ∧
      ∀ e ∈ edgesOf (get_client_family_network cm md frows).elements,
        e.source ∈ nodeIdsOf (get_client_family_network cm md frows).elements ∧
        e.target ∈ nodeIdsOf (get_client_family_network cm md frows).elements) ∧
    (EdgesGrounded (venFold vm vrows).trace ∧
      ∀ e ∈ edgesOf (get_vendor_matter_network vm pa mv vrows).elements,
        e.source ∈ nodeIdsOf (get_vendor_matter_network vm pa mv vrows).elements ∧
        e.target ∈ nodeIdsOf (get_vendor_matter_network vm pa mv vrows).elements) ∧
    (EdgesGrounded (staffFold sm srows).trace ∧
      ∀ e ∈ edgesOf (get_staff_workload_network sm dep srows).elements,
        e.source ∈ nodeIdsOf (get_staff_workload_network sm dep srows).elements ∧
        e.target ∈ nodeIdsOf (get_staff_workload_network sm dep srows).elements) := by
  refine ⟨⟨(famInv_fold cm md frows).ground, ?_⟩,
          ⟨(venInv_fold vm vrows).ground, ?_⟩,
          ⟨(staffInv_fold sm srows).ground, ?_⟩⟩
  · rw [family_elements, edgesOf_elements, nodeIdsOf_elements]
    exact edgesGrounded_mem _ (famInv_fold cm md frows).ground
  · rw [vendor_elements, edgesOf_elements, nodeIdsOf_elements]
    exact edgesGrounded_mem _ (venInv_fold vm vrows).ground
  · rw [staff_elements, edgesOf_elements, nodeIdsOf_elements]
    exact edgesGrounded_mem _ (staffInv_fold sm srows).ground

/-- Claim C1 witness: on the concrete one-row input, the family edge of
`rowW` splits the emission trace and both its endpoints are ids of nodes
emitted before it. -/
theorem network_edges_reference_previously_emitted_nodes_witness :
    (familyEdge rowW).source ∈ nodeIdsOf
        [Element.node (clientNode cmW "A" "Alice"),
         Element.node (clientNode cmW "B" "Bob")] ∧
    (familyEdge rowW).target ∈ nodeIdsOf
        [Element.node (clientNode cmW "A" "Alice"),
         Element.node (clientNode cmW "B" "Bob")] := by
  have h := (network_edges_reference_previously_emitted_nodes cmW mdW [rowW]
    vmW none 50000 [venRowW] smW none [staffRowW]).1.1
  exact h [Element.node (clientNode cmW "A" "Alice"),
           Element.node (clientNode cmW "B" "Bob")]
    (familyEdge rowW)
    [Element.node (famMatterNode mdW "M1"), Element.edge (ownsEdge "A" "M1")]
    (by decide)

/-- Claim C2: for every relationship-row sequence, the node list of each
aggregation function's payload contains no two node records with the
same id. -/
theorem network_node_ids_nodup
    (cm : String → Option ClientMetrics) (md : String → Option MatterData)
    (frows : List FamilyRow) (vm : String → Option VendorMetrics)
    (pa : Option String) (mv : Int) (vrows : List VendorRow)
    (sm : String → Option StaffAgg) (dep : Option String)
    (srows : List StaffRow) :
    ((nodesOf (get_client_family_network cm md frows).elements).map Node.id).Nodup ∧
    ((nodesOf (get_vendor_matter_network vm pa mv vrows).elements).map Node.id).Nodup ∧
    ((nodesOf (get_staff_workload_network sm dep srows).elements).map Node.id).Nodup := by
  refine ⟨?_, ?_, ?_⟩
  · rw [family_elements, nodesOf_elements]
    exact (famInv_fold cm md frows).nodup
  · rw [vendor_elements, nodesOf_elements]
    exact (venInv_fold vm vrows).nodup
  · rw [staff_elements, nodesOf_elements]
    exact (staffInv_fold sm srows).nodup

theorem famStep_mem_seenClients (cm : String → Option ClientMetrics)
    (md : String → Option MatterData) (st : FamState) (r : FamilyRow) (x : String) :
    x ∈ (famStep cm md st r).seen_clients ↔
      x ∈ st.seen_clients ∨ x = r.client1_id ∨ x = r.client2_id := by
  unfold famStep
  rw [matterFold_seenClients, matterFold_seenClients]
  rw [show ({ famAddClient cm r.client2_id r.client2_name
        (famAddClient cm r.client1_id r.client1_name st) with
        trace := (famAddClient cm r.client2_id r.client2_name
          (famAddClient cm r.client1_id r.client1_name st)).trace ++
            [Element.edge (familyEdge r)] } : FamState).seen_clients =
      (famAddClient cm r.client2_id r.client2_name
        (famAddClient cm r.client1_id r.client1_name st)).seen_clients from rfl]
  rw [famAddClient_mem_seen, famAddClient_mem_seen]
  tauto

theorem famFoldFrom_mem_seenClients (cm : String → Option ClientMetrics)
    (md : String → Option MatterData) (rows : List FamilyRow) (st : FamState)
    (x : String) :
    x ∈ (rows.foldl (famStep cm md) st).seen_clients ↔
      x ∈ st.seen_clients ∨ x ∈ famClientIds rows := by
  induction rows generalizing st with
  | nil => simp [famClientIds]
  | cons r rows ih =>
    rw [List.foldl_cons, ih, famStep_mem_seenClients]
    simp only [famClientIds, List.flatMap_cons, List.mem_append, List.mem_cons,
      List.mem_singleton]
    rw [famClientIds] at *
    tauto

/-- Claim C7: the family payload's stats report the node-list length,
the edge-list length, and half the number of distinct seen client ids
(the distinct client ids occurring in the rows). -/
theorem family_stats_report_counts (cm : String → Option ClientMetrics)
    (md : String → Option MatterData) (rows : List FamilyRow) :
    (get_client_family_network cm md rows).stats.nodeCount =
      (nodesOf (get_client_family_network cm md rows).elements).length ∧
    (get_client_family_network cm md rows).stats.edgeCount =
      (edgesOf (get_client_family_network cm md rows).elements).length ∧
    (get_client_family_network cm md rows).stats.clusterCount =
      (famClientIds rows).toFinset.card / 2 := by
  refine ⟨?_, ?_, ?_⟩
  · rw [family_elements, nodesOf_elements]; rfl
  · rw [family_elements, edgesOf_elements]; rfl
  · show (famFold cm md rows).seen_clients.length / 2 = _
    congr 1
    have hnd := (famInv_fold cm md rows).seenC_nodup
    have hext : (famFold cm md rows).seen_clients.toFinset =
        (famClientIds rows).toFinset := by
      ext c
      simp only [List.mem_toFinset]
      rw [famFold, famFoldFrom_mem_seenClients]
      simp [famInit]
    rw [← hext, List.toFinset_card_of_nodup hnd]

/-- Claim C8: on the single row with clients A, B and A's matter M1,
the family network contains exactly the nodes A, B, M1 (in emission
order) and exactly the edges A-B (family) and A-M1 (owns). -/
theorem family_single_row_example (cm : String → Option ClientMetrics)
    (md : String → Option MatterData) :
    ((nodesOf (get_client_family_network cm md [rowW]).elements).map Node.id =
      ["client_A", "client_B", "matter_M1"]) ∧
    ((edgesOf (get_client_family_network cm md [rowW]).elements).map
        (fun e => (e.source, e.target, e.relationship)) =
      [("client_A", "client_B", "family"), ("client_A", "matter_M1", "owns")]) := by
  rw [family_elements, nodesOf_elements, edgesOf_elements]
  constructor
  · simp [famFold, famStep, famAddClient, famAddMatter, famInit, clientNode,
          famMatterNode, rowW, nodesOf]
  · simp [famFold, famStep, famAddClient, famAddMatter, famInit, clientNode,
          famMatterNode, familyEdge, ownsEdge, rowW, edgesOf]

/-- Claim C9: on an empty row sequence every aggregation function
returns empty elements and all-zero stats (including the derived
clusterCount and avgWorkload). -/
theorem empty_rows_empty_payload (cm : String → Option ClientMetrics)
    (md : String → Option MatterData) (vm : String → Option VendorMetrics)
    (pa : Option String) (mv : Int) (sm : String → Option StaffAgg)
    (dep : Option String) :
    (get_client_family_network cm md []).elements = [] ∧
    (get_client_family_network cm md []).stats = ⟨0, 0, 0⟩ ∧
    (get_vendor_matter_network vm pa mv []).elements = [] ∧
    (get_vendor_matter_network vm pa mv []).stats = ⟨0, 0, 0⟩ ∧
    (get_staff_workload_network sm dep []).elements = [] ∧
    (get_staff_workload_network sm dep []).stats = ⟨0, 0, 0, 0⟩ := by
  refine ⟨rfl, ?_, rfl, ?_, rfl, ?_⟩
  · simp [get_client_family_network, famFold, famInit, nodesOf, edgesOf]
  · simp [get_vendor_matter_network, venFold, venInit, nodesOf, edgesOf]
  · simp [get_staff_workload_network, staffFold, staffInit, nodesOf, edgesOf]

/-- Claim C10: for every auxiliary query result, `_get_staff_metrics`
computes `capacity_percentage` as `min(100, active_matters / 15 * 100)`
with `active_matters` defaulting to zero, and the result lies between 0
and 100 inclusive. -/
theorem staff_capacity_percentage_bounds (aux : Option StaffAgg) :
    (get_staff_metrics aux).capacity_percentage =
      min 100 (((((aux.map StaffAgg.active_matters).getD 0 : Nat) : Rat) / 15) * 100) ∧
    0 ≤ (get_staff_metrics aux).capacity_percentage ∧
    (get_staff_metrics aux).capacity_percentage ≤ 100 := by
  refine ⟨rfl, ?_, min_le_left _ _⟩
  refine le_min (by norm_num) ?_
  positivity

/-! ### Edge multiplicity -/

theorem ownsEdge_ne_familyEdge (cid mid : String) (r : FamilyRow) :
    ownsEdge cid mid ≠ familyEdge r := by
  simp [ownsEdge, familyEdge]

theorem ownsEdge_ne_usedInEdge (cid mid : String) (r : VendorRow) :
    ownsEdge cid mid ≠ usedInEdge r := by
  simp [ownsEdge, usedInEdge]

theorem famAddClient_edges (cm : String → Option ClientMetrics) (cid nm : String)
    (st : FamState) :
    edgesOf (famAddClient cm cid nm st).trace = edgesOf st.trace := by
  unfold famAddClient
  split
  · rfl
  · rw [edgesOf_append]; simp

theorem famAddMatter_count_family (md : String → Option MatterData)
    (cid : String) (st : FamState) (mid : String) (r0 : FamilyRow) :
    (edgesOf (famAddMatter md cid st mid).trace).count (familyEdge r0) =
      (edgesOf st.trace).count (familyEdge r0) := by
  unfold famAddMatter
  split
  · rfl
  · rw [edgesOf_append, List.count_append]
    have h0 : familyEdge r0 ∉
        edgesOf [Element.node (famMatterNode md mid), Element.edge (ownsEdge cid mid)] := by
      simp only [edgesOf_node, edgesOf_edge, edgesOf_nil, List.mem_singleton]
      exact fun h => ownsEdge_ne_familyEdge cid mid r0 h.symm
    rw [List.count_eq_zero.mpr h0, Nat.add_zero]

theorem famMatterFold_count_family (md : String → Option MatterData)
    (cid : String) (ms : List String) (st : FamState) (r0 : FamilyRow) :
    (edgesOf (ms.foldl (famAddMatter md cid) st).trace).count (familyEdge r0) =
      (edgesOf st.trace).count (familyEdge r0) := by
  induction ms generalizing st with
  | nil => rfl
  | cons m ms ih => rw [List.foldl_cons, ih, famAddMatter_count_family]

theorem famStep_count_family (cm : String → Option ClientMetrics)
    (md : String → Option MatterData) (st : FamState) (r r0 : FamilyRow) :
    (edgesOf (famStep cm md st r).trace).count (familyEdge r0) =
      (edgesOf st.trace).count (familyEdge r0) +
        (if familyEdge r = familyEdge r0 then 1 else 0) := by
  unfold famStep
  rw [famMatterFold_count_family, famMatterFold_count_family]
  rw [show ({ famAddClient cm r.client2_id r.client2_name
        (famAddClient cm r.client1_id r.client1_name st) with
        trace := (famAddClient cm r.client2_id r.client2_name
          (famAddClient cm r.client1_id r.client1_name st)).trace ++
            [Element.edge (familyEdge r)] } : FamState).trace =
      (famAddClient cm r.client2_id r.client2_name
        (famAddClient cm r.client1_id r.client1_name st)).trace ++
            [Element.edge (familyEdge r)] from rfl]
  rw [edgesOf_append, List.count_append, famAddClient_edges, famAddClient_edges]
  congr 1
  simp [List.count_singleton', edgesOf]

theorem famFoldFrom_count_family (cm : String → Option ClientMetrics)
    (md : String → Option MatterData) (rows : List FamilyRow) (st : FamState)
    (r0 : FamilyRow) :
    (edgesOf (rows.foldl (famStep cm md) st).trace).count (familyEdge r0) =
      (edgesOf st.trace).count (familyEdge r0) +
        rows.countP (fun r => familyEdge r == familyEdge r0) := by
  induction rows generalizing st with
  | nil => simp
  | cons r rows ih =>
    rw [List.foldl_cons, ih, famStep_count_family, List.countP_cons]
    simp only [beq_iff_eq]
    by_cases h : familyEdge r = familyEdge r0
    · simp only [h, if_true]
      omega
    · simp only [h, if_false]
      omega

theorem venAddVendor_edges (vm : String → Option VendorMetrics) (st : VenState)
    (r : VendorRow) : edgesOf (venAddVendor vm st r).trace = edgesOf st.trace := by
  unfold venAddVendor
  split
  · rfl
  · rw [edgesOf_append]; simp

theorem venAddMatter_edges (st : VenState) (r : VendorRow) :
    edgesOf (venAddMatter st r).trace = edgesOf st.trace := by
  unfold venAddMatter
  split
  · rfl
  · rw [edgesOf_append]; simp

theorem venAddClient_count_usedIn (st : VenState) (r : VendorRow) (v0 : VendorRow) :
    (edgesOf (venAddClient st r).trace).count (usedInEdge v0) =
      (edgesOf st.trace).count (usedInEdge v0) := by
  unfold venAddClient
  split
  · rfl
  · rw [edgesOf_append, List.count_append]
    have h0 : usedInEdge v0 ∉
        edgesOf [Element.node (venClientNode r),
          Element.edge (ownsEdge r.client_id r.matter_id)] := by
      simp only [edgesOf_node, edgesOf_edge, edgesOf_nil, List.mem_singleton]
      exact fun h => ownsEdge_ne_usedInEdge r.client_id r.matter_id v0 h.symm
    rw [List.count_eq_zero.mpr h0, Nat.add_zero]

theorem venStep_count_usedIn (vm : String → Option VendorMetrics) (st : VenState)
    (r : VendorRow) (v0 : VendorRow) :
    (edgesOf (venStep vm st r).trace).count (usedInEdge v0) =
      (edgesOf st.trace).count (usedInEdge v0) +
        (if usedInEdge r = usedInEdge v0 then 1 else 0) := by
  unfold venStep
  rw [show ({ venAddClient (venAddMatter (venAddVendor vm st r) r) r with
      trace := (venAddClient (venAddMatter (venAddVendor vm st r) r) r).trace ++
        [Element.edge (usedInEdge r)] } : VenState).trace =
      (venAddClient (venAddMatter (venAddVendor vm st r) r) r).trace ++
        [Element.edge (usedInEdge r)] from rfl]
  rw [edgesOf_append, List.count_append, venAddClient_count_usedIn,
    venAddMatter_edges, venAddVendor_edges]
  congr 1
  simp [List.count_singleton', edgesOf]

theorem venFoldFrom_count_usedIn (vm : String → Option VendorMetrics)
    (rows : List VendorRow) (st : VenState) (v0 : VendorRow) :
    (edgesOf (rows.foldl (venStep vm) st).trace).count (usedInEdge v0) =
      (edgesOf st.trace).count (usedInEdge v0) +
        rows.countP (fun r => usedInEdge r == usedInEdge v0) := by
  induction rows generalizing st with
  | nil => simp
  | cons r rows ih =>
    rw [List.foldl_cons, ih, venStep_count_usedIn, List.countP_cons]
    simp only [beq_iff_eq]
    by_cases h : usedInEdge r = usedInEdge v0
    · simp only [h, if_true]
      omega
    · simp only [h, if_false]
      omega

/-- Claim C5: edges are not deduplicated: a relationship row occurring
at least twice makes its per-row edge (the family edge, resp. the
used-in edge) occur at least twice in the output edge list, while the
node list still has no duplicate ids. -/
theorem repeated_rows_produce_repeated_edges
    (cm : String → Option ClientMetrics) (md : String → Option MatterData)
    (frows : List FamilyRow) (r0 : FamilyRow)
    (vm : String → Option VendorMetrics) (pa : Option String) (mv : Int)
    (vrows : List VendorRow) (v0 : VendorRow)
    (hf : 2 ≤ frows.count r0) (hv : 2 ≤ vrows.count v0) :
    2 ≤ (edgesOf (get_client_family_network cm md frows).elements).count
          (familyEdge r0) ∧
    ((nodesOf (get_client_family_network cm md frows).elements).map Node.id).Nodup ∧
    2 ≤ (edgesOf (get_vendor_matter_network vm pa mv vrows).elements).count
          (usedInEdge v0) ∧
    ((nodesOf (get_vendor_matter_network vm pa mv vrows).elements).map Node.id).Nodup := by
  refine ⟨?_, ?_, ?_, ?_⟩
  · rw [family_elements, edgesOf_elements, famFold, famFoldFrom_count_family]
    have hle : frows.count r0 ≤
        frows.countP (fun r => familyEdge r == familyEdge r0) := by
      rw [List.count_eq_countP]
      refine List.countP_mono_left ?_
      intro a ha h
      have ha0 : a = r0 := by simpa using h
      simp [ha0]
    omega
  · rw [family_elements, nodesOf_elements]
    exact (famInv_fold cm md frows).nodup
  · rw [vendor_elements, edgesOf_elements, venFold, venFoldFrom_count_usedIn]
    have hle : vrows.count v0 ≤
        vrows.countP (fun r => usedInEdge r == usedInEdge v0) := by
      rw [List.count_eq_countP]
      refine List.countP_mono_left ?_
      intro a ha h
      have ha0 : a = v0 := by simpa using h
      simp [ha0]
    omega
  · rw [vendor_elements, nodesOf_elements]
    exact (venInv_fold vm vrows).nodup

/-- Claim C5 witness: duplicating the concrete family row and the
concrete vendor row yields duplicated family / used-in edges while the
node ids stay distinct. -/
theorem repeated_rows_produce_repeated_edges_witness :
    2 ≤ (edgesOf (get_client_family_network cmW mdW [rowW, rowW]).elements).count
          (familyEdge rowW) ∧
    ((nodesOf (get_client_family_network cmW mdW [rowW, rowW]).elements).map Node.id).Nodup ∧
    2 ≤ (edgesOf (get_vendor_matter_network vmW none 50000
          [venRowW, venRowW]).elements).count (usedInEdge venRowW) ∧
    ((nodesOf (get_vendor_matter_network vmW none 50000
          [venRowW, venRowW]).elements).map Node.id).Nodup :=
  repeated_rows_produce_repeated_edges cmW mdW [rowW, rowW] rowW vmW none 50000
    [venRowW, venRowW] venRowW (by decide) (by decide)


theorem clientNode_congr (cm cm' : String → Option ClientMetrics) (cid nm : String)
    (h : cm cid = cm' cid) : clientNode cm cid nm = clientNode cm' cid nm := by
  unfold clientNode; rw [h]

theorem famAddClient_congr (cm cm' : String → Option ClientMetrics) (cid nm : String)
    (st : FamState) (h : cm cid = cm' cid) :
    famAddClient cm cid nm st = famAddClient cm' cid nm st := by
  unfold famAddClient
  rw [clientNode_congr cm cm' cid nm h]

theorem famMatterNode_congr (md md' : String → Option MatterData) (mid : String)
    (h : md mid = md' mid) : famMatterNode md mid = famMatterNode md' mid := by
  unfold famMatterNode; rw [h]

theorem famAddMatter_congr (md md' : String → Option MatterData) (cid : String)
    (st : FamState) (mid : String) (h : md mid = md' mid) :
    famAddMatter md cid st mid = famAddMatter md' cid st mid := by
  unfold famAddMatter
  rw [famMatterNode_congr md md' mid h]

theorem famMatterFold_congr (md md' : String → Option MatterData) (cid : String)
    (ms : List String) (st : FamState) (h : ∀ m ∈ ms, md m = md' m) :
    ms.foldl (famAddMatter md cid) st = ms.foldl (famAddMatter md' cid) st := by
  induction ms generalizing st with
  | nil => rfl
  | cons m ms ih =>
    rw [List.foldl_cons, List.foldl_cons,
      famAddMatter_congr md md' cid st m (h m (List.mem_cons_self m ms))]
    exact ih _ fun x hx => h x (List.mem_cons_of_mem m hx)

theorem famStep_congr (cm cm' : String → Option ClientMetrics)
    (md md' : String → Option MatterData) (st : FamState) (r : FamilyRow)
    (h1 : cm r.client1_id = cm' r.client1_id)
    (h2 : cm r.client2_id = cm' r.client2_id)
    (hm : ∀ m ∈ r.client1_matters ++ r.client2_matters, md m = md' m) :
    famStep cm md st r = famStep cm' md' st r := by
  simp only [famStep]
  rw [famAddClient_congr cm cm' r.client1_id r.client1_name st h1,
    famAddClient_congr cm cm' r.client2_id r.client2_name _ h2,
    famMatterFold_congr md md' r.client1_id r.client1_matters _
      (fun m hx => hm m (List.mem_append_left _ hx)),
    famMatterFold_congr md md' r.client2_id r.client2_matters _
      (fun m hx => hm m (List.mem_append_right _ hx))]

theorem famFoldFrom_congr (cm cm' : String → Option ClientMetrics)
    (md md' : String → Option MatterData) (rows : List FamilyRow) (st : FamState)
    (h1 : ∀ c ∈ famClientIds rows, cm c = cm' c)
    (h2 : ∀ m ∈ famMatterIds rows, md m = md' m) :
    rows.foldl (famStep cm md) st = rows.foldl (famStep cm' md') st := by
  induction rows generalizing st with
  | nil => rfl
  | cons r rows ih =>
    rw [List.foldl_cons, List.foldl_cons,
      famStep_congr cm cm' md md' st r
        (h1 r.client1_id (by simp [famClientIds]))
        (h1 r.client2_id (by simp [famClientIds]))
        (fun m hx => h2 m (by
          simp only [famMatterIds, List.flatMap_cons, List.mem_append]
          exact Or.inl (List.mem_append.mp hx)))]
    refine ih _ ?_ ?_
    · intro c hc
      refine h1 c ?_
      simp only [famClientIds, List.flatMap_cons, List.mem_append]
      exact Or.inr (by simpa [famClientIds] using hc)
    · intro m hm
      refine h2 m ?_
      simp only [famMatterIds, List.flatMap_cons, List.mem_append]
      exact Or.inr (by simpa [famMatterIds] using hm)

theorem vendorNode_congr (vm vm' : String → Option VendorMetrics) (r : VendorRow)
    (h : vm r.vendor_id = vm' r.vendor_id) : vendorNode vm r = vendorNode vm' r := by
  unfold vendorNode; rw [h]

theorem venAddVendor_congr (vm vm' : String → Option VendorMetrics) (st : VenState)
    (r : VendorRow) (h : vm r.vendor_id = vm' r.vendor_id) :
    venAddVendor vm st r = venAddVendor vm' st r := by
  unfold venAddVendor
  rw [vendorNode_congr vm vm' r h]

theorem venStep_congr (vm vm' : String → Option VendorMetrics) (st : VenState)
    (r : VendorRow) (h : vm r.vendor_id = vm' r.vendor_id) :
    venStep vm st r = venStep vm' st r := by
  simp only [venStep]
  rw [venAddVendor_congr vm vm' st r h]

theorem venFoldFrom_congr (vm vm' : String → Option VendorMetrics)
    (rows : List VendorRow) (st : VenState)
    (h : ∀ v ∈ rows.map VendorRow.vendor_id, vm v = vm' v) :
    rows.foldl (venStep vm) st = rows.foldl (venStep vm') st := by
  induction rows generalizing st with
  | nil => rfl
  | cons r rows ih =>
    rw [List.foldl_cons, List.foldl_cons,
      venStep_congr vm vm' st r (h r.vendor_id (by simp))]
    exact ih _ fun v hv => h v (by simp only [List.map_cons, List.mem_cons]; exact Or.inr hv)

theorem staffNode_congr (sm sm' : String → Option StaffAgg) (r : StaffRow)
    (h : sm r.staff_id = sm' r.staff_id) : staffNode sm r = staffNode sm' r := by
  unfold staffNode; rw [h]

theorem staffAddStaff_congr (sm sm' : String → Option StaffAgg) (st : StaffState)
    (r : StaffRow) (h : sm r.staff_id = sm' r.staff_id) :
    staffAddStaff sm st r = staffAddStaff sm' st r := by
  unfold staffAddStaff
  rw [staffNode_congr sm sm' r h]

theorem staffStep_congr (sm sm' : String → Option StaffAgg) (st : StaffState)
    (r : StaffRow) (h : sm r.staff_id = sm' r.staff_id) :
    staffStep sm st r = staffStep sm' st r := by
  simp only [staffStep]
  rw [staffAddStaff_congr sm sm' _ r h]

theorem staffFoldFrom_congr (sm sm' : String → Option StaffAgg)
    (rows : List StaffRow) (st : StaffState)
    (h : ∀ s ∈ rows.map StaffRow.staff_id, sm s = sm' s) :
    rows.foldl (staffStep sm) st = rows.foldl (staffStep sm') st := by
  induction rows generalizing st with
  | nil => rfl
  | cons r rows ih =>
    rw [List.foldl_cons, List.foldl_cons,
      staffStep_congr sm sm' st r (h r.staff_id (by simp))]
    exact ih _ fun s hs => h s (by simp only [List.map_cons, List.mem_cons]; exact Or.inr hs)

/-- Claim C3: the aggregation is deterministic: two runs on the same
ordered row sequence whose auxiliary metrics lookups return the same
responses (on every id the run queries) produce identical payloads,
node and edge order included. -/
theorem aggregation_deterministic_under_equal_lookups (cm cm' : String → Option ClientMetrics)
    (md md' : String → Option MatterData) (frows : List FamilyRow)
    (vm vm' : String → Option VendorMetrics) (pa : Option String) (mv : Int)
    (vrows : List VendorRow) (sm sm' : String → Option StaffAgg)
    (dep : Option String) (srows : List StaffRow)
    (h1 : ∀ c ∈ famClientIds frows, cm c = cm' c)
    (h2 : ∀ m ∈ famMatterIds frows, md m = md' m)
    (h3 : ∀ v ∈ vrows.map VendorRow.vendor_id, vm v = vm' v)
    (h4 : ∀ s ∈ srows.map StaffRow.staff_id, sm s = sm' s) :
    get_client_family_network cm md frows = get_client_family_network cm' md' frows ∧
    get_vendor_matter_network vm pa mv vrows = get_vendor_matter_network vm' pa mv vrows ∧
    get_staff_workload_network sm dep srows = get_staff_workload_network sm' dep srows := by
  refine ⟨?_, ?_, ?_⟩
  · unfold get_client_family_network
    rw [famFold, famFold, famFoldFrom_congr cm cm' md md' frows famInit h1 h2]
  · unfold get_vendor_matter_network
    rw [venFold, venFold, venFoldFrom_congr vm vm' vrows venInit h3]
  · unfold get_staff_workload_network
    rw [staffFold, staffFold, staffFoldFrom_congr sm sm' srows staffInit h4]

/-- Claim C3 witness: two concrete client-metrics lookups that agree on
the ids the single-row input queries (but differ elsewhere) give
identical family payloads; the other lookups are shared outright. -/
theorem aggregation_deterministic_under_equal_lookups_witness :
    get_client_family_network cmW mdW [rowW] = get_client_family_network cmW2 mdW [rowW] ∧
    get_vendor_matter_network vmW none 50000 [venRowW] =
      get_vendor_matter_network vmW none 50000 [venRowW] ∧
    get_staff_workload_network smW none [staffRowW] =
      get_staff_workload_network smW none [staffRowW] :=
  aggregation_deterministic_under_equal_lookups cmW cmW2 mdW mdW [rowW] vmW vmW none 50000 [venRowW] smW smW none [staffRowW]
    (by decide) (fun m _ => rfl) (fun v _ => rfl) (fun s _ => rfl)



theorem clientNodesFor_append (cid : String) (s t : List Element) :
    clientNodesFor cid (s ++ t) = clientNodesFor cid s ++ clientNodesFor cid t := by
  simp [clientNodesFor, nodesOf_append, List.filter_append]

theorem clientNodesFor_single_node (cid : String) (n : Node) :
    clientNodesFor cid [Element.node n] =
      if n.id = "client_" ++ cid then [n] else [] := by
  simp only [clientNodesFor, nodesOf_node, nodesOf_nil, List.filter_singleton]
  split <;> rename_i h
  · simp [h]
  · simp [h]

theorem clientNodesFor_snoc_edge (cid : String) (t : List Element) (e : Edge) :
    clientNodesFor cid (t ++ [.edge e]) = clientNodesFor cid t := by
  rw [clientNodesFor_append]
  simp [clientNodesFor, nodesOf]

theorem famAddClient_of_seen (cm : String → Option ClientMetrics) (cid nm : String)
    (st : FamState) (h : cid ∈ st.seen_clients) :
    famAddClient cm cid nm st = st := by
  unfold famAddClient
  rw [if_pos h]

theorem famAddClient_clientNodesFor_self (cm : String → Option ClientMetrics)
    (cid nm : String) (st : FamState) (h : cid ∉ st.seen_clients) :
    clientNodesFor cid (famAddClient cm cid nm st).trace =
      clientNodesFor cid st.trace ++ [clientNode cm cid nm] := by
  unfold famAddClient
  rw [if_neg h]
  show clientNodesFor cid (st.trace ++ [.node (clientNode cm cid nm)]) = _
  rw [clientNodesFor_append, clientNodesFor_single_node]
  have hid : (clientNode cm cid nm).id = "client_" ++ cid := rfl
  rw [if_pos hid]

theorem famAddClient_clientNodesFor_ne (cm : String → Option ClientMetrics)
    (cid' nm : String) (st : FamState) (cid : String) (h : cid' ≠ cid) :
    clientNodesFor cid (famAddClient cm cid' nm st).trace =
      clientNodesFor cid st.trace := by
  unfold famAddClient
  split
  · rfl
  · show clientNodesFor cid (st.trace ++ [.node (clientNode cm cid' nm)]) = _
    rw [clientNodesFor_append, clientNodesFor_single_node]
    have hne : ¬(clientNode cm cid' nm).id = "client_" ++ cid :=
      fun hh => h (append_left_inj _ _ _ hh)
    rw [if_neg hne, List.append_nil]

theorem famAddMatter_clientNodesFor (md : String → Option MatterData)
    (cid' : String) (st : FamState) (mid cid : String) :
    clientNodesFor cid (famAddMatter md cid' st mid).trace =
      clientNodesFor cid st.trace := by
  unfold famAddMatter
  split
  · rfl
  · show clientNodesFor cid (st.trace ++
      [.node (famMatterNode md mid), .edge (ownsEdge cid' mid)]) = _
    rw [show (st.trace ++ [Element.node (famMatterNode md mid),
        Element.edge (ownsEdge cid' mid)]) =
      (st.trace ++ [Element.node (famMatterNode md mid)]) ++
        [Element.edge (ownsEdge cid' mid)] by simp]
    rw [clientNodesFor_snoc_edge, clientNodesFor_append, clientNodesFor_single_node]
    have hne : ¬(famMatterNode md mid).id = "client_" ++ cid :=
      fun hh => client_ne_matter cid mid hh.symm
    rw [if_neg hne, List.append_nil]

theorem famMatterFold_clientNodesFor (md : String → Option MatterData)
    (cid' : String) (ms : List String) (st : FamState) (cid : String) :
    clientNodesFor cid (ms.foldl (famAddMatter md cid') st).trace =
      clientNodesFor cid st.trace := by
  induction ms generalizing st with
  | nil => rfl
  | cons m ms ih => rw [List.foldl_cons, ih, famAddMatter_clientNodesFor]


theorem famStep_clientNodesFor_seen (cm : String → Option ClientMetrics)
    (md : String → Option MatterData) (st : FamState) (r : FamilyRow)
    (cid : String) (h : cid ∈ st.seen_clients) :
    clientNodesFor cid (famStep cm md st r).trace = clientNodesFor cid st.trace := by
  simp only [famStep]
  rw [famMatterFold_clientNodesFor, famMatterFold_clientNodesFor]
  show clientNodesFor cid ((famAddClient cm r.client2_id r.client2_name
    (famAddClient cm r.client1_id r.client1_name st)).trace ++
      [.edge (familyEdge r)]) = _
  rw [clientNodesFor_snoc_edge]
  by_cases h2 : r.client2_id = cid
  · have hseen1 : cid ∈ (famAddClient cm r.client1_id r.client1_name st).seen_clients :=
      (famAddClient_mem_seen _ _ _ _ _).mpr (Or.inl h)
    rw [show r.client2_id = cid from h2, famAddClient_of_seen _ _ _ _ hseen1]
    by_cases h1 : r.client1_id = cid
    · rw [show r.client1_id = cid from h1, famAddClient_of_seen _ _ _ _ h]
    · rw [famAddClient_clientNodesFor_ne _ _ _ _ _ h1]
  · rw [famAddClient_clientNodesFor_ne _ _ _ _ _ h2]
    by_cases h1 : r.client1_id = cid
    · rw [show r.client1_id = cid from h1, famAddClient_of_seen _ _ _ _ h]
    · rw [famAddClient_clientNodesFor_ne _ _ _ _ _ h1]

theorem famFoldFrom_clientNodesFor_seen (cm : String → Option ClientMetrics)
    (md : String → Option MatterData) (rows : List FamilyRow) (st : FamState)
    (cid : String) (h : cid ∈ st.seen_clients) :
    clientNodesFor cid (rows.foldl (famStep cm md) st).trace =
      clientNodesFor cid st.trace := by
  induction rows generalizing st with
  | nil => rfl
  | cons r rows ih =>
    rw [List.foldl_cons,
      ih _ ((famStep_mem_seenClients cm md st r cid).mpr (Or.inl h)),
      famStep_clientNodesFor_seen cm md st r cid h]

theorem famStep_clientNodesFor_unseen (cm : String → Option ClientMetrics)
    (md : String → Option MatterData) (st : FamState) (r : FamilyRow)
    (cid : String) (h : cid ∉ st.seen_clients) :
    clientNodesFor cid (famStep cm md st r).trace =
      clientNodesFor cid st.trace ++
        (if r.client1_id = cid then [clientNode cm cid r.client1_name]
         else if r.client2_id = cid then [clientNode cm cid r.client2_name]
         else []) := by
  simp only [famStep]
  rw [famMatterFold_clientNodesFor, famMatterFold_clientNodesFor]
  show clientNodesFor cid ((famAddClient cm r.client2_id r.client2_name
    (famAddClient cm r.client1_id r.client1_name st)).trace ++
      [.edge (familyEdge r)]) = _
  rw [clientNodesFor_snoc_edge]
  by_cases h1 : r.client1_id = cid
  · rw [if_pos h1]
    have hseen : cid ∈ (famAddClient cm r.client1_id r.client1_name st).seen_clients :=
      (famAddClient_mem_seen _ _ _ _ _).mpr (Or.inr h1.symm)
    by_cases h2 : r.client2_id = cid
    · rw [show r.client2_id = cid from h2, famAddClient_of_seen _ _ _ _ hseen,
        show r.client1_id = cid from h1,
        famAddClient_clientNodesFor_self cm cid r.client1_name st h]
    · rw [famAddClient_clientNodesFor_ne _ _ _ _ _ h2,
        show r.client1_id = cid from h1,
        famAddClient_clientNodesFor_self cm cid r.client1_name st h]
  · rw [if_neg h1]
    by_cases h2 : r.client2_id = cid
    · rw [if_pos h2]
      have hun : cid ∉ (famAddClient cm r.client1_id r.client1_name st).seen_clients := by
        intro hx
        rcases (famAddClient_mem_seen _ _ _ _ _).mp hx with hx | hx
        · exact h hx
        · exact h1 hx.symm
      rw [show r.client2_id = cid from h2,
        famAddClient_clientNodesFor_self cm cid r.client2_name _ hun,
        famAddClient_clientNodesFor_ne cm r.client1_id r.client1_name st cid h1]
    · rw [if_neg h2,
        famAddClient_clientNodesFor_ne _ _ _ _ _ h2,
        famAddClient_clientNodesFor_ne _ _ _ _ _ h1, List.append_nil]

theorem famFoldFrom_clientNodesFor_unseen (cm : String → Option ClientMetrics)
    (md : String → Option MatterData) (rows : List FamilyRow) (st : FamState)
    (cid : String) (h : cid ∉ st.seen_clients) :
    clientNodesFor cid (rows.foldl (famStep cm md) st).trace =
      clientNodesFor cid st.trace ++
        (match firstClientName rows cid with
         | some nm => [clientNode cm cid nm]
         | none => []) := by
  induction rows generalizing st with
  | nil => simp [firstClientName]
  | cons r rows ih =>
    rw [List.foldl_cons]
    by_cases h1 : r.client1_id = cid
    · have hstep := famStep_clientNodesFor_unseen cm md st r cid h
      rw [if_pos h1] at hstep
      have hseen : cid ∈ (famStep cm md st r).seen_clients :=
        (famStep_mem_seenClients cm md st r cid).mpr (Or.inr (Or.inl h1.symm))
      rw [famFoldFrom_clientNodesFor_seen cm md rows _ cid hseen, hstep,
        show firstClientName (r :: rows) cid = some r.client1_name by
          simp [firstClientName, h1]]
    · by_cases h2 : r.client2_id = cid
      · have hstep := famStep_clientNodesFor_unseen cm md st r cid h
        rw [if_neg h1, if_pos h2] at hstep
        have hseen : cid ∈ (famStep cm md st r).seen_clients :=
          (famStep_mem_seenClients cm md st r cid).mpr (Or.inr (Or.inr h2.symm))
        rw [famFoldFrom_clientNodesFor_seen cm md rows _ cid hseen, hstep,
          show firstClientName (r :: rows) cid = some r.client2_name by
            simp [firstClientName, h1, h2]]
      · have hstep := famStep_clientNodesFor_unseen cm md st r cid h
        rw [if_neg h1, if_neg h2, List.append_nil] at hstep
        have hun : cid ∉ (famStep cm md st r).seen_clients := by
          intro hx
          rcases (famStep_mem_seenClients cm md st r cid).mp hx with hx | hx | hx
          · exact h hx
          · exact h1 hx.symm
          · exact h2 hx.symm
        rw [ih _ hun, hstep,
          show firstClientName (r :: rows) cid = firstClientName rows cid by
            simp [firstClientName, h1, h2]]

theorem firstClientName_isSome_of_mem (rows : List FamilyRow) (cid : String)
    (h : cid ∈ famClientIds rows) :
    ∃ nm, firstClientName rows cid = some nm := by
  induction rows with
  | nil => simp [famClientIds] at h
  | cons r rows ih =>
    by_cases h1 : r.client1_id = cid
    · exact ⟨r.client1_name, by simp [firstClientName, h1]⟩
    · by_cases h2 : r.client2_id = cid
      · exact ⟨r.client2_name, by simp [firstClientName, h1, h2]⟩
      · refine (by simp [firstClientName, h1, h2] : firstClientName (r :: rows) cid =
          firstClientName rows cid) ▸ ih ?_
        simp only [famClientIds, List.flatMap_cons, List.mem_append, List.mem_cons,
          List.not_mem_nil, or_false, List.mem_singleton] at h
        rcases h with (h | h) | h
        · exact absurd h.symm h1
        · exact absurd h.symm h2
        · exact h

/-- Claim C6: when two or more rows reference the same client id, the
payload holds exactly one node for that client, built from the name at
the id's first occurrence (rows in order, client1 before client2) and
from the metrics lookup for that id, and the `_get_client_metrics`
lookup for that id is executed exactly once. -/
theorem repeated_client_one_node_one_lookup (cm : String → Option ClientMetrics) (md : String → Option MatterData)
    (rows : List FamilyRow) (cid : String) (h : 2 ≤ famRowsReferencing rows cid) :
    ∃ nm, firstClientName rows cid = some nm ∧
      clientNodesFor cid (get_client_family_network cm md rows).elements =
        [clientNode cm cid nm] ∧
      (famFold cm md rows).client_calls.count cid = 1 := by
  have h1 : 0 < famRowsReferencing rows cid := by omega
  obtain ⟨r, hr, hp⟩ := List.countP_pos_iff.mp h1
  have hoc : cid ∈ famClientIds rows := by
    simp only [famClientIds, List.mem_flatMap]
    refine ⟨r, hr, ?_⟩
    simp only [Bool.or_eq_true, beq_iff_eq] at hp
    rcases hp with hp | hp
    · simp [hp]
    · simp [hp]
  obtain ⟨nm, hnm⟩ := firstClientName_isSome_of_mem rows cid hoc
  refine ⟨nm, hnm, ?_, ?_⟩
  · have hproj : clientNodesFor cid (get_client_family_network cm md rows).elements =
        clientNodesFor cid (famFold cm md rows).trace := by
      rw [family_elements]
      unfold clientNodesFor
      rw [nodesOf_elements]
    rw [hproj, famFold,
      famFoldFrom_clientNodesFor_unseen cm md rows famInit cid (by simp [famInit]),
      hnm]
    simp [clientNodesFor, famInit, nodesOf]
  · rw [(famInv_fold cm md rows).callsC]
    have hmem : cid ∈ (famFold cm md rows).seen_clients := by
      rw [famFold, famFoldFrom_mem_seenClients]
      exact Or.inr hoc
    exact List.count_eq_one_of_mem (famInv_fold cm md rows).seenC_nodup hmem

/-- Claim C6 witness: two concrete rows both referencing client A give
a single A node (named from the first row) and one logged lookup. -/
theorem repeated_client_one_node_one_lookup_witness :
    ∃ nm, firstClientName [rowW, rowW2] "A" = some nm ∧
      clientNodesFor "A" (get_client_family_network cmW mdW [rowW, rowW2]).elements =
        [clientNode cmW "A" nm] ∧
      (famFold cmW mdW [rowW, rowW2]).client_calls.count "A" = 1 :=
  repeated_client_one_node_one_lookup cmW mdW [rowW, rowW2] "A" (by decide)



theorem mock_shapeOk {G : Type} (P : RNG G) (g0 : G) (limit : Nat)
    (df : Option String) :
    matter3dShapeOk (generate_sophisticated_mock_data P g0 limit df) := by
  simp [matter3dShapeOk, generate_sophisticated_mock_data]

theorem format_shapeOk (rows : List MatterDBRow) :
    matter3dShapeOk (format_dataframe_for_3d rows) := by
  simp [matter3dShapeOk, format_dataframe_for_3d]

/-- Claim C4 (amended): in the matter-3D analytics service a store
failure is caught at the call site and replaced by deterministically
generated placeholder data of the same shape (`get_matter_3d_data`
falls back to the seeded mock builder, `get_department_summary` to a
fixed mock summary), and every outcome of those functions is
well-shaped. -/
theorem matter3d_store_failures_caught_with_same_shape {G : Type} (P : RNG G) (g0 : G) (limit : Nat)
    (df : Option String) (e e' : String)
    (store : Except String (List MatterDBRow))
    (dstore : Except String (List DeptSummaryRow)) :
    get_matter_3d_data P g0 limit df (Except.error e) =
      generate_sophisticated_mock_data P g0 limit df ∧
    matter3dShapeOk (get_matter_3d_data P g0 limit df store) ∧
    get_department_summary (Except.error e') = mockDeptSummary ∧
    deptSummaryShapeOk (get_department_summary dstore) := by
  refine ⟨rfl, ?_, rfl, ?_⟩
  · cases store with
    | error e2 => exact mock_shapeOk P g0 limit df
    | ok rows =>
      by_cases hrows : rows = []
      · subst hrows
        exact mock_shapeOk P g0 limit df
      · have heq : get_matter_3d_data P g0 limit df (Except.ok rows) =
            format_dataframe_for_3d rows := by
          unfold get_matter_3d_data get_real_matter_data
          simp [hrows]
        rw [heq]
        exact format_shapeOk rows
  · cases dstore with
    | error e2 => exact ⟨rfl, rfl, rfl, rfl⟩
    | ok rows => simp [deptSummaryShapeOk, get_department_summary]

/-- Claim C4 counterexample: `get_client_family_network` contains no
`try`/`except`, so a failing graph query propagates the error to the
caller instead of being replaced by a well-formed payload — refuting
the claim for "every data-access query function". -/
theorem family_network_store_failure_propagates :
    get_client_family_network_run cmW mdW (Except.error "neo4j unreachable") =
      Except.error "neo4j unreachable" := rfl

end ClioDash

